import Mathlib

/-!
# Shiboken header generator: dispatch and converter synthesis

A shallow embedding of `headergenerator.cpp`.  A `QTextStream` is the text
written so far (a `String`); `s << x` appends.  The global `Indentor INDENT`
is its current level, passed explicitly; an `Indentation` guard raises the
level by one for the block it lives in.  Pointers to metaclasses are addresses
that are read through the generator's class memory.  The helpers of the base
generator that `headergenerator.cpp` calls but does not define are fields of
`Generator` and, for `generateClass` and `finishGeneration`, of `HeaderGen`,
which also holds the metamodel lists.  The member `m_packageName` is passed to
`finishGeneration` and returned by it.
-/

namespace HeaderGenerator

/-! ## Data model -/

/-- Address of an `AbstractMetaClass` object (`const AbstractMetaClass*`). -/
abbrev ClassPtr := Nat

/-- Modelled from the spec: the category tag of a type entry (`TypeEntry::type()`,
declared outside this file): primitive, enum, flag, value, object, container or
namespace. -/
inductive TypeCategory
  | primitive
  | enumType
  | flagsType
  | value
  | object
  | container
  | namespaceType
  deriving DecidableEq

/-- The part of `Include` that the header generator reads: `isValid()` and the
directive text `toString()`. -/
structure Include where
  isValid : Bool
  toString : String
  deriving DecidableEq

/-- The part of `TypeEntry` that the header generator reads.  `conversionRule`
is `some text` exactly when `hasConversionRule()` holds; `includeDirective` is
the value of `include()`. -/
structure TypeEntry where
  name : String
  category : TypeCategory
  conversionRule : Option String
  includeDirective : Include
  deriving DecidableEq

def TypeEntry.isEnum (t : TypeEntry) : Bool := t.category == TypeCategory.enumType
def TypeEntry.isFlags (t : TypeEntry) : Bool := t.category == TypeCategory.flagsType
def TypeEntry.isValue (t : TypeEntry) : Bool := t.category == TypeCategory.value
def TypeEntry.isObject (t : TypeEntry) : Bool := t.category == TypeCategory.object
def TypeEntry.isNamespace (t : TypeEntry) : Bool := t.category == TypeCategory.namespaceType
def TypeEntry.hasConversionRule (t : TypeEntry) : Bool := t.conversionRule.isSome

/-- The part of `AbstractMetaType` (the type of a return value or argument)
that the header generator reads. -/
structure AbstractMetaType where
  name : String
  isObject : Bool
  isQObject : Bool
  deriving DecidableEq

structure AbstractMetaArgument where
  type : AbstractMetaType
  deriving DecidableEq

/-- The part of `AbstractMetaFunction` that the header generator reads.  `type`
is the return type (`func->type()`, null for none). -/
structure AbstractMetaFunction where
  name : String
  isPrivate : Bool
  isModifiedRemoved : Bool
  isAbstract : Bool
  isCopyConstructor : Bool
  isConstructor : Bool
  isVirtual : Bool
  type : Option AbstractMetaType
  arguments : List AbstractMetaArgument
  ownerClass : ClassPtr
  implementingClass : ClassPtr
  deriving DecidableEq

/-- An element of the list returned by `implicitConversions(type)`: a
constructor that takes an argument, so that `ctor->arguments().first()` is
defined. -/
structure ImplicitConversion where
  ctor : AbstractMetaFunction
  hasArgument : ctor.arguments ≠ []

/-- The value of `ctor->arguments().first()->type()`. -/
def ImplicitConversion.firstArgumentType (c : ImplicitConversion) : AbstractMetaType :=
  (c.ctor.arguments.head c.hasArgument).type

/-- A `FlagsTypeEntry`: a type entry of the flag category. -/
structure FlagsTypeEntry where
  entry : TypeEntry
  isFlagsEntry : entry.category = TypeCategory.flagsType

/-- An `EnumTypeEntry`: a type entry of the enum category, with its flags entry
(`flags()`, null for none). -/
structure EnumTypeEntry where
  entry : TypeEntry
  isEnumEntry : entry.category = TypeCategory.enumType
  flags : Option FlagsTypeEntry

/-- The part of `AbstractMetaEnum` that the header generator reads. -/
structure AbstractMetaEnum where
  includeFile : String
  typeEntry : EnumTypeEntry

/-- The part of `AbstractMetaClass` that the header generator reads. -/
structure AbstractMetaClass where
  name : String
  qualifiedCppName : String
  package : String
  typeEntry : TypeEntry
  isNamespace : Bool
  isAbstract : Bool
  isQObject : Bool
  hasPrivateDestructor : Bool
  hasCloneOperator : Bool
  enclosingClass : Option ClassPtr
  innerClasses : List ClassPtr
  enums : List AbstractMetaEnum

/-- The generator object as seen from `headergenerator.cpp`: the class memory,
the text that `s << INDENT` writes at each level, and the helpers inherited
from the base generator.  A helper that writes to the stream
(`writeFunctionCall`, `writeBaseConversion`) is given by the text it appends. -/
structure Generator where
  indent : Nat → String
  classAt : ClassPtr → AbstractMetaClass
  findClass : String → Option ClassPtr
  implicitConversions : TypeEntry → List ImplicitConversion
  functionSignature : AbstractMetaFunction → String
  signatureForDefaultVirtualMethod : AbstractMetaFunction → String → String → String
  writeFunctionCall : AbstractMetaFunction → String
  functionReturnType : AbstractMetaFunction → String
  cpythonTypeName : TypeEntry → String
  cpythonCheckFunction : TypeEntry → String
  cpythonCheckFunctionMetaType : AbstractMetaType → String
  writeBaseConversion : AbstractMetaType → String

/-! ## `writeVirtualDispatcher` and `writeFunction` -/

/-- The function `HeaderGenerator::writeVirtualDispatcher` (lines 147-169). -/
def writeVirtualDispatcher (g : Generator) (INDENT : Nat) (s : String)
    (func : AbstractMetaFunction) : String :=
  let returnKeyword := if func.type.isSome then "return " else ""
  let s := s ++ g.indent INDENT ++ "static "
    ++ g.signatureForDefaultVirtualMethod func "" "_dispatcher" ++ " \x7b" ++ "\n"
  let s := s ++ g.indent (INDENT + 1) ++ returnKeyword
  let s :=
    if func.isModifiedRemoved && func.isAbstract then
      if (match func.type with
          | some t => t.isObject || t.isQObject || t.name == "void"
          | none => false) then
        s ++ "0"
      else
        s ++ g.functionReturnType func ++ "()"
    else
      let s := s ++ "self." ++ (g.classAt func.implementingClass).qualifiedCppName ++ "::"
      s ++ g.writeFunctionCall func
  let s := s ++ ";" ++ "\n"
  s ++ g.indent INDENT ++ "\x7d" ++ "\n"

/-- The function `HeaderGenerator::writeFunction` (lines 118-145). -/
def writeFunction (g : Generator) (INDENT : Nat) (s : String)
    (func : AbstractMetaFunction) : String :=
  if func.isPrivate || (func.isModifiedRemoved && !func.isAbstract) then
    s
  else if func.isCopyConstructor then
    s
  else if func.isConstructor || func.isAbstract || func.isVirtual then
    let s := s ++ g.indent INDENT
    let s := if func.isVirtual || func.isAbstract then s ++ "virtual " else s
    let s := s ++ g.functionSignature func ++ ";" ++ "\n"
    if func.isVirtual && !func.isAbstract && !func.isConstructor &&
        !(g.classAt func.ownerClass).hasPrivateDestructor &&
        func.implementingClass == func.ownerClass then
      writeVirtualDispatcher g INDENT s func
    else
      s
  else
    s

/-! ## `writeTypeCheckMacro`, `writeTypeConverterDecl`, `writeTypeConverterImpl` -/

/-- The function `HeaderGenerator::writeTypeCheckMacro` (lines 171-180). -/
def writeTypeCheckMacro (g : Generator) (s : String) (type : TypeEntry) : String :=
  let pyTypeName := g.cpythonTypeName type
  let checkFunction := g.cpythonCheckFunction type
  let s := s ++ "PyAPI_DATA(PyTypeObject) " ++ pyTypeName ++ ";" ++ "\n"
  let s := s ++ "#define " ++ checkFunction ++ "(op) PyObject_TypeCheck(op, &"
  let s := s ++ pyTypeName ++ ")" ++ "\n"
  let s := s ++ "#define " ++ checkFunction ++ "Exact(op) ((op)->ob_type == &"
  s ++ pyTypeName ++ ")" ++ "\n"

/-- The function `HeaderGenerator::writeTypeConverterDecl` (lines 182-221). -/
def writeTypeConverterDecl (g : Generator) (INDENT : Nat) (s : String)
    (type : TypeEntry) : String :=
  let s := s ++ "template<>" ++ "\n"
  let metaClass := g.findClass type.name
  let isAbstractOrObjectType :=
    (match metaClass with
     | some c => (g.classAt c).isAbstract
     | none => false) || type.isObject
  let s := s ++ "struct Converter<" ++ type.name
    ++ (if isAbstractOrObjectType then "*" else "") ++ " > : "
  let s := if type.isEnum || type.isFlags then s ++ "Converter_CppEnum" else s ++ "ConverterBase"
  let s := s ++ "<" ++ type.name ++ (if isAbstractOrObjectType then "*" else "") ++ " >" ++ "\n"
  let s := s ++ "\x7b" ++ "\n"
  let hasImplicitConversions := !(g.implicitConversions type).isEmpty
  let s :=
    if hasImplicitConversions then
      s ++ g.indent INDENT ++ "static bool isConvertible(PyObject* pyobj);" ++ "\n"
    else s
  let s := s ++ g.indent INDENT ++ "static PyObject* createWrapper("
  let convArg := type.name
  let convArg := if !type.isEnum && !type.isFlags then ("const " ++ convArg) ++ "*" else convArg
  let s := s ++ convArg ++ " cppobj);" ++ "\n"
  let s :=
    if type.isValue && hasImplicitConversions then
      let s := s ++ g.indent INDENT ++ "static " ++ type.name ++ "* copyCppObject(const "
      s ++ type.name ++ "& cppobj);" ++ "\n"
    else s
  let s :=
    if type.isValue then
      let s := s ++ g.indent INDENT ++ "static PyObject* toPython(const " ++ type.name
        ++ "& cppobj);" ++ "\n"
      if hasImplicitConversions then
        s ++ g.indent INDENT ++ "static " ++ type.name ++ " toCpp(PyObject* pyobj);" ++ "\n"
      else s
    else s
  s ++ "\x7d;" ++ "\n"

/-- One iteration of the `foreach` of lines 269-277; the state is the stream
and the flag `isFirst`.  The body runs one `Indentation` deeper. -/
def isConvertibleStep (g : Generator) (INDENT : Nat) (st : String × Bool)
    (ctor : ImplicitConversion) : String × Bool :=
  let s := st.1
  let s := if st.2 then s else s ++ "\n" ++ g.indent (INDENT + 1) ++ " || "
  let s := s ++ g.cpythonCheckFunctionMetaType ctor.firstArgumentType
  (s ++ "(pyobj)", false)

/-- One iteration of the `foreach` of lines 301-317; the state is the stream
and the flag `firstImplicitIf`. -/
def toCppStep (g : Generator) (INDENT : Nat) (type : TypeEntry) (st : String × Bool)
    (ctor : ImplicitConversion) : String × Bool :=
  if ctor.ctor.isModifiedRemoved then
    st
  else
    let argType := ctor.firstArgumentType
    let s := st.1
    let s := if st.2 then s else s ++ g.indent INDENT ++ "else "
    let s := s ++ "if (" ++ g.cpythonCheckFunctionMetaType argType ++ "(pyobj))" ++ "\n"
    let s := s ++ g.indent (INDENT + 1) ++ "return " ++ type.name ++ "("
    let s := s ++ g.writeBaseConversion argType
    (s ++ "toCpp(pyobj));" ++ "\n", false)

/-- The function `HeaderGenerator::writeTypeConverterImpl` (lines 223-328). -/
def writeTypeConverterImpl (g : Generator) (INDENT : Nat) (s : String)
    (type : TypeEntry) : String :=
  if type.hasConversionRule then
    s
  else
    let pyTypeName := g.cpythonTypeName type
    let metaClass := g.findClass type.name
    let isAbstractOrObjectType :=
      (match metaClass with
       | some c => (g.classAt c).isAbstract
       | none => false) || type.isObject
    let s := s ++ "inline PyObject* Converter<" ++ type.name
      ++ (if isAbstractOrObjectType then "*" else "")
    let s := s ++ " >::createWrapper("
    let convArg := type.name
    let convArg := if !type.isEnum && !type.isFlags then ("const " ++ convArg) ++ "*" else convArg
    let s := s ++ convArg ++ " cppobj)" ++ "\n"
    let s := s ++ "\x7b" ++ "\n"
    let s := s ++ g.indent INDENT ++ "return " ++ "Shiboken::"
    let s :=
      if type.isObject || type.isValue then
        s ++ "PyBaseWrapper_New(&" ++ pyTypeName ++ ", &" ++ pyTypeName ++ ","
      else
        let s := s ++ "PyEnumObject_New(" ++ "\n"
        let s := s ++ g.indent (INDENT + 2) ++ "&" ++ pyTypeName ++ "," ++ "\n"
        s ++ g.indent (INDENT + 2) ++ "\"ReturnedValue\", (long)"
    let s := s ++ " cppobj);" ++ "\n"
    let s := s ++ "\x7d" ++ "\n" ++ "\n"
    let implicitConvs := g.implicitConversions type
    let hasImplicitConversions := !implicitConvs.isEmpty
    let s :=
      if hasImplicitConversions then
        let s := s ++ "inline bool Converter<" ++ type.name
          ++ " >::isConvertible(PyObject* pyobj)" ++ "\n"
        let s := s ++ "\x7b" ++ "\n"
        let s := s ++ g.indent INDENT ++ "return "
        let s := (implicitConvs.foldl (isConvertibleStep g INDENT) (s, true)).1
        let s := s ++ ";" ++ "\n"
        s ++ "\x7d" ++ "\n" ++ "\n"
      else s
    if !type.isValue then
      s
    else
      let s := s ++ "inline PyObject* Converter<" ++ type.name ++ " >::toPython(const "
      let s := s ++ type.name ++ "& cppobj)" ++ "\n"
      let s := s ++ "\x7b" ++ "\n"
      let s := s ++ g.indent INDENT ++ "return Converter<" ++ type.name
        ++ " >::createWrapper(new "
      let s := s ++ type.name ++ "(cppobj));" ++ "\n"
      let s := s ++ "\x7d" ++ "\n" ++ "\n"
      if !hasImplicitConversions then
        s
      else
        let s := s ++ "inline " ++ type.name ++ " Converter<" ++ type.name
          ++ " >::toCpp(PyObject* pyobj)" ++ "\n"
        let s := s ++ "\x7b" ++ "\n" ++ g.indent INDENT
        let s := (implicitConvs.foldl (toCppStep g INDENT type) (s, true)).1
        let s := s ++ g.indent INDENT ++ "return *Converter<" ++ type.name
          ++ "* >::toCpp(pyobj);" ++ "\n"
        let s := s ++ "\x7d" ++ "\n" ++ "\n"
        let s := s ++ "inline " ++ type.name ++ "* Converter<" ++ type.name
        let s := s ++ " >::copyCppObject(const " ++ type.name ++ "& cppobj)" ++ "\n"
        let s := s ++ "\x7b" ++ "\n"
        let s := s ++ g.indent INDENT ++ "return new " ++ type.name ++ "(cppobj);" ++ "\n"
        s ++ "\x7d" ++ "\n" ++ "\n"

/-! ## `fileNameForClass` -/

/-- The function `QString::toLower`, on the ASCII letters. -/
def QString.toLower (s : String) : String := ⟨s.data.map Char.toLower⟩

/-- The function `QString::toUpper`, on the ASCII letters. -/
def QString.toUpper (s : String) : String := ⟨s.data.map Char.toUpper⟩

/-- The scan of `QString::replace("::", "_")`: left to right, every occurrence
found is replaced and the search goes on behind it. -/
def QString.replaceScopeAux : List Char → List Char
  | [] => []
  | [c] => [c]
  | c :: d :: rest =>
    if c = ':' ∧ d = ':' then '_' :: QString.replaceScopeAux rest
    else c :: QString.replaceScopeAux (d :: rest)

/-- The call `QString::replace("::", "_")`. -/
def QString.replaceScope (s : String) : String := ⟨QString.replaceScopeAux s.data⟩

/-- The function `HeaderGenerator::fileNameForClass` (lines 35-38). -/
def fileNameForClass (g : Generator) (metaClass : ClassPtr) : String :=
  QString.replaceScope (QString.toLower (g.classAt metaClass).qualifiedCppName) ++ "_wrapper.h"

/-! ## `generateClass` and `finishGeneration` -/

/-- The positions of `CodeSnip::Position` that the header generator asks for. -/
inductive CodeSnipPosition
  | Declaration
  | PrototypeInitialization
  deriving DecidableEq

/-- The header generator with everything else it reads: the helpers of the
base generator used by `generateClass` and `finishGeneration`, the metamodel
lists, the type database and the file system.  `writeCodeSnips` is the text
that the helper appends for the native-code snips of a type entry at a
position, at an indentation level.  `moduleName` is the value of
`moduleName()` when the stored package name is the argument.  `fileOpens` tells
whether `QFile::open(WriteOnly)` succeeds on a path. -/
structure HeaderGen extends Generator where
  licenseComment : String
  wrapperName : ClassPtr → String
  filterFunctions : ClassPtr → List AbstractMetaFunction
  writeCodeSnips : Nat → TypeEntry → CodeSnipPosition → String
  cpythonBaseName : TypeEntry → String
  shouldGenerate : ClassPtr → Bool
  globalEnums : List AbstractMetaEnum
  classes : List ClassPtr
  primitiveTypes : List TypeEntry
  containerTypes : List TypeEntry
  typeDatabaseEntries : List TypeEntry
  separator : Char
  outputDirectory : String
  subDirectoryForPackage : String → String
  moduleName : String → String
  fileOpens : String → Bool

/-- The function `HeaderGenerator::writeCopyCtor` (lines 40-46). -/
def writeCopyCtor (h : HeaderGen) (INDENT : Nat) (s : String) (metaClass : ClassPtr) : String :=
  let s := s ++ h.indent INDENT ++ h.wrapperName metaClass ++ "(const "
    ++ (h.classAt metaClass).qualifiedCppName ++ "& self)"
  let s := s ++ " : " ++ (h.classAt metaClass).qualifiedCppName ++ "(self)" ++ "\n"
  let s := s ++ h.indent INDENT ++ "\x7b" ++ "\n"
  s ++ h.indent INDENT ++ "\x7d" ++ "\n" ++ "\n"

/-- The function `HeaderGenerator::generateClass` (lines 48-116).  The guard
`Indentation indent(INDENT)` makes the whole body run one level deeper than the
caller; the debug report of line 50 writes nothing to the stream. -/
def generateClass (h : HeaderGen) (INDENT : Nat) (s : String) (metaClass : ClassPtr) : String :=
  let s := s ++ h.licenseComment
  let wrapperName := h.wrapperName metaClass
  let s := s ++ "#ifndef " ++ QString.toUpper wrapperName ++ "_H" ++ "\n"
  let s := s ++ "#define " ++ QString.toUpper wrapperName ++ "_H" ++ "\n" ++ "\n"
  let s :=
    if !(h.classAt metaClass).isNamespace && !(h.classAt metaClass).hasPrivateDestructor then
      let s := s ++ "// The mother of all C++ binding hacks!" ++ "\n"
      s ++ "#define protected public" ++ "\n" ++ "\n"
    else s
  let s := s ++ "#include <shiboken.h>" ++ "\n" ++ "\n"
  let s :=
    if (h.classAt metaClass).typeEntry.includeDirective.isValid then
      s ++ (h.classAt metaClass).typeEntry.includeDirective.toString ++ "\n" ++ "\n"
    else s
  let s := s ++ h.writeCodeSnips (INDENT + 1) (h.classAt metaClass).typeEntry
    CodeSnipPosition.Declaration
  let s :=
    if !(h.classAt metaClass).isNamespace && !(h.classAt metaClass).hasPrivateDestructor then
      let s := s ++ "class SHIBOKEN_LOCAL " ++ wrapperName
      let s := s ++ " : public " ++ (h.classAt metaClass).qualifiedCppName
      let s := s ++ "\n" ++ "\x7b" ++ "\n" ++ "public:" ++ "\n"
      let s :=
        if (h.classAt metaClass).hasCloneOperator then writeCopyCtor h (INDENT + 1) s metaClass
        else s
      let s := (h.filterFunctions metaClass).foldl (writeFunction h.toGenerator (INDENT + 1)) s
      let s := s ++ h.indent (INDENT + 1) ++ "~" ++ wrapperName ++ "();" ++ "\n"
      let s :=
        if (h.classAt metaClass).isQObject && (h.classAt metaClass).name != "QObject" then
          s ++ h.indent (INDENT + 1) ++ "using QObject::parent;" ++ "\n"
        else s
      let s := s ++ h.writeCodeSnips (INDENT + 1) (h.classAt metaClass).typeEntry
        CodeSnipPosition.PrototypeInitialization
      s ++ "\x7d;" ++ "\n" ++ "\n"
    else s
  s ++ "#endif // " ++ QString.toUpper wrapperName ++ "_H" ++ "\n" ++ "\n"

/-- The last element of `path.split(separator)`: what follows the last
separator. -/
def lastPathComponent (separator : Char) (path : String) : String :=
  ⟨(path.data.reverse.takeWhile (fun c => c != separator)).reverse⟩

/-- Insertion into a `QSet<QString>`, kept as the list of its distinct elements
in the order of first insertion. -/
def qsetInsert (set : List String) (x : String) : List String :=
  if x ∈ set then set else set ++ [x]

/-- The text streams and the set filled by the first part of `finishGeneration`,
with the stored package name `m_packageName`. -/
structure FinishState where
  m_packageName : String
  classIncludes : String
  enumIncludes : List String
  pythonTypeStuff : String
  convertersDecl : String
  convertersImpl : String

/-- One iteration of the `foreach` over the global enums (lines 348-357). -/
def globalEnumStep (h : HeaderGen) (INDENT : Nat) (st : FinishState)
    (cppEnum : AbstractMetaEnum) : FinishState :=
  let incFile := lastPathComponent h.separator cppEnum.includeFile
  let enumIncludes :=
    if incFile ≠ "" then qsetInsert st.enumIncludes cppEnum.includeFile else st.enumIncludes
  let s_pts := writeTypeCheckMacro h.toGenerator st.pythonTypeStuff cppEnum.typeEntry.entry
  let s_pts := s_pts ++ "\n"
  let convDecl := writeTypeConverterDecl h.toGenerator INDENT st.convertersDecl
    cppEnum.typeEntry.entry
  let convImpl := writeTypeConverterImpl h.toGenerator INDENT st.convertersImpl
    cppEnum.typeEntry.entry
  let convDecl := convDecl ++ "\n"
  { st with
    enumIncludes := enumIncludes
    pythonTypeStuff := s_pts
    convertersDecl := convDecl
    convertersImpl := convImpl }

/-- One iteration of the `foreach` over the enums of a class (lines 372-383). -/
def classEnumStep (h : HeaderGen) (INDENT : Nat) (st : FinishState)
    (cppEnum : AbstractMetaEnum) : FinishState :=
  let s_pts := writeTypeCheckMacro h.toGenerator st.pythonTypeStuff cppEnum.typeEntry.entry
  let s_pts := s_pts ++ "\n"
  let convDecl := writeTypeConverterDecl h.toGenerator INDENT st.convertersDecl
    cppEnum.typeEntry.entry
  let convImpl := writeTypeConverterImpl h.toGenerator INDENT st.convertersImpl
    cppEnum.typeEntry.entry
  let convDecl :=
    match cppEnum.typeEntry.flags with
    | some flagsEntry => writeTypeConverterDecl h.toGenerator INDENT convDecl flagsEntry.entry
    | none => convDecl
  let convImpl :=
    match cppEnum.typeEntry.flags with
    | some flagsEntry => writeTypeConverterImpl h.toGenerator INDENT convImpl flagsEntry.entry
    | none => convImpl
  let convDecl := convDecl ++ "\n"
  { st with
    pythonTypeStuff := s_pts
    convertersDecl := convDecl
    convertersImpl := convImpl }

/-- One iteration of the `foreach` over the inner classes (lines 386-396). -/
def innerClassStep (h : HeaderGen) (INDENT : Nat) (st : FinishState)
    (innerClass : ClassPtr) : FinishState :=
  if h.shouldGenerate innerClass then
    let s_cin := st.classIncludes
      ++ (h.classAt innerClass).typeEntry.includeDirective.toString ++ "\n"
    let s_pts := st.pythonTypeStuff ++ "PyAPI_FUNC(PyObject*) "
      ++ h.cpythonBaseName (h.classAt innerClass).typeEntry
    let s_pts := s_pts ++ "_New(PyTypeObject* type, PyObject* args, PyObject* kwds);" ++ "\n"
    let s_pts := writeTypeCheckMacro h.toGenerator s_pts (h.classAt innerClass).typeEntry
    let convDecl := writeTypeConverterDecl h.toGenerator INDENT st.convertersDecl
      (h.classAt innerClass).typeEntry
    let convImpl := writeTypeConverterImpl h.toGenerator INDENT st.convertersImpl
      (h.classAt innerClass).typeEntry
    let convDecl := convDecl ++ "\n"
    { st with
      classIncludes := s_cin
      pythonTypeStuff := s_pts
      convertersDecl := convDecl
      convertersImpl := convImpl }
  else st

/-- One iteration of the `foreach` over the classes (lines 359-406).
`m_packageName.isEmpty()` is equality with the empty string. -/
def classStep (h : HeaderGen) (INDENT : Nat) (st : FinishState)
    (metaClass : ClassPtr) : FinishState :=
  let classType := (h.classAt metaClass).typeEntry
  if !h.shouldGenerate metaClass || (h.classAt metaClass).enclosingClass.isSome ||
      !(classType.isObject || classType.isValue || classType.isNamespace) then
    st
  else
    let st :=
      if st.m_packageName = "" then { st with m_packageName := (h.classAt metaClass).package }
      else st
    let st :=
      if (h.classAt metaClass).typeEntry.includeDirective.isValid then
        { st with
          classIncludes := st.classIncludes
            ++ (h.classAt metaClass).typeEntry.includeDirective.toString ++ "\n" }
      else st
    let st := (h.classAt metaClass).enums.foldl (classEnumStep h INDENT) st
    if !(h.classAt metaClass).isNamespace then
      let st := (h.classAt metaClass).innerClasses.foldl (innerClassStep h INDENT) st
      let s_pts := st.pythonTypeStuff ++ "PyAPI_FUNC(PyObject*) "
        ++ h.cpythonBaseName (h.classAt metaClass).typeEntry
      let s_pts := s_pts ++ "_New(PyTypeObject* type, PyObject* args, PyObject* kwds);" ++ "\n"
      let s_pts := writeTypeCheckMacro h.toGenerator s_pts classType
      let s_pts := s_pts ++ "#define Py" ++ (h.classAt metaClass).name ++ "_cptr(pyobj) (("
      let s_pts := s_pts ++ (h.classAt metaClass).name ++ "*)PyBaseWrapper_cptr(pyobj))"
        ++ "\n" ++ "\n"
      let convDecl := writeTypeConverterDecl h.toGenerator INDENT st.convertersDecl classType
      let convImpl := writeTypeConverterImpl h.toGenerator INDENT st.convertersImpl classType
      let convDecl := convDecl ++ "\n"
      { st with
        pythonTypeStuff := s_pts
        convertersDecl := convDecl
        convertersImpl := convImpl }
    else st

/-- The first part of `finishGeneration` (lines 335-406): the streams are
opened empty, the global enums and then the classes are gone through, one
indentation level deeper than the caller. -/
def collectStreams (h : HeaderGen) (INDENT : Nat) (m_packageName : String) : FinishState :=
  let st : FinishState :=
    { m_packageName := m_packageName, classIncludes := "", enumIncludes := [],
      pythonTypeStuff := "", convertersDecl := "", convertersImpl := "" }
  let st := { st with pythonTypeStuff := st.pythonTypeStuff ++ "\n" ++ "// Global enums" ++ "\n" }
  let st := h.globalEnums.foldl (globalEnumStep h (INDENT + 1)) st
  h.classes.foldl (classStep h (INDENT + 1)) st

/-- One iteration of the `foreach` over the enum include set (lines 437-438). -/
def enumIncludeWriteStep (s : String) (inc : String) : String :=
  s ++ "#include <" ++ inc ++ ">" ++ "\n"

/-- One iteration of the `foreach` over the primitive types, and of the one
over the container types (lines 444-447 and 453-456). -/
def typeIncludeWriteStep (s : String) (type : TypeEntry) : String :=
  if type.includeDirective.isValid then s ++ type.includeDirective.toString ++ "\n" else s

/-- One iteration of the `foreach` over the entries of the type database
(lines 470-475). -/
def conversionRuleWriteStep (s : String) (typeEntry : TypeEntry) : String :=
  match typeEntry.conversionRule with
  | some rule =>
    let s := s ++ "// Conversion rule for: " ++ typeEntry.name ++ "\n"
    s ++ rule
  | none => s

/-- The text written to the module header file (lines 416-482). -/
def writeModuleHeader (h : HeaderGen) (st : FinishState) (includeShield : String) : String :=
  let s := ""
  let s := s ++ h.licenseComment ++ "\n" ++ "\n"
  let s := s ++ "#ifndef " ++ includeShield ++ "\n"
  let s := s ++ "#define " ++ includeShield ++ "\n" ++ "\n"
  let s := s ++ "#include <Python.h>" ++ "\n"
  let s := s ++ "#include <conversions.h>" ++ "\n"
  let s := s ++ "#include <pyenum.h>" ++ "\n"
  let s := s ++ "#include <basewrapper.h>" ++ "\n"
  let s := s ++ "#include <bindingmanager.h>" ++ "\n" ++ "\n"
  let s := s ++ "#include <memory>" ++ "\n" ++ "\n"
  let s := s ++ "// Class Includes" ++ "\n"
  let s := s ++ st.classIncludes ++ "\n"
  let s :=
    if !st.enumIncludes.isEmpty then
      let s := s ++ "// Enum Includes" ++ "\n"
      let s := st.enumIncludes.foldl enumIncludeWriteStep s
      s ++ "\n"
    else s
  let s :=
    if !h.primitiveTypes.isEmpty then
      let s := s ++ "// Conversion Includes - Primitive Types" ++ "\n"
      let s := h.primitiveTypes.foldl typeIncludeWriteStep s
      s ++ "\n"
    else s
  let s :=
    if !h.containerTypes.isEmpty then
      let s := s ++ "// Conversion Includes - Container Types" ++ "\n"
      let s := h.containerTypes.foldl typeIncludeWriteStep s
      s ++ "\n"
    else s
  let s := s ++ "extern \"C\"" ++ "\n" ++ "\x7b" ++ "\n" ++ "\n"
  let s := s ++ st.pythonTypeStuff ++ "\n"
  let s := s ++ "\x7d // extern \"C\"" ++ "\n" ++ "\n"
  let s := s ++ "namespace Shiboken" ++ "\n" ++ "\x7b" ++ "\n" ++ "\n"
  let s := s ++ "// Generated converters declarations ----------------------------------"
    ++ "\n" ++ "\n"
  let s := s ++ st.convertersDecl ++ "\n"
  let s := s ++ "// User defined converters --------------------------------------------" ++ "\n"
  let s := h.typeDatabaseEntries.foldl conversionRuleWriteStep s
  let s := s ++ "// Generated converters implementations -------------------------------"
    ++ "\n" ++ "\n"
  let s := s ++ st.convertersImpl ++ "\n"
  let s := s ++ "\x7d // namespace Shiboken" ++ "\n" ++ "\n"
  s ++ "#endif // " ++ includeShield ++ "\n" ++ "\n"

/-- What a run of `finishGeneration` leaves: the stored package name, the path
of the module header, and the text written to it (`none` when the file could
not be opened). -/
structure FinishResult where
  m_packageName : String
  moduleHeaderFileName : String
  written : Option String
  deriving DecidableEq

/-- The function `HeaderGenerator::finishGeneration` (lines 330-484), started
with the stored package name `m_packageName`. -/
def finishGeneration (h : HeaderGen) (INDENT : Nat) (m_packageName : String) : FinishResult :=
  let st := collectStreams h INDENT m_packageName
  let moduleHeaderFileName := h.outputDirectory ++ String.singleton h.separator
    ++ h.subDirectoryForPackage st.m_packageName
  let moduleHeaderFileName := moduleHeaderFileName
    ++ (String.singleton h.separator ++ QString.toLower (h.moduleName st.m_packageName)
      ++ "_python.h")
  let includeShield := QString.toUpper (h.moduleName st.m_packageName) ++ "_PYTHON_H"
  if h.fileOpens moduleHeaderFileName then
    { m_packageName := st.m_packageName
      moduleHeaderFileName := moduleHeaderFileName
      written := some (writeModuleHeader h st includeShield) }
  else
    { m_packageName := st.m_packageName
      moduleHeaderFileName := moduleHeaderFileName
      written := none }

/-! ## A concrete generator and metamodel, used to evaluate the definitions -/

/-- Four blanks per level, as the generator's `Indentor` prints. -/
def demoIndent : Nat → String
  | 0 => ""
  | n + 1 => demoIndent n ++ "    "

def demoShapeEntry : TypeEntry :=
  { name := "Shape", category := TypeCategory.object, conversionRule := none,
    includeDirective := { isValid := true, toString := "#include <shape.h>" } }

def demoPointEntry : TypeEntry :=
  { name := "Point", category := TypeCategory.value, conversionRule := none,
    includeDirective := { isValid := true, toString := "#include <point.h>" } }

def demoColorEntry : TypeEntry :=
  { name := "Color", category := TypeCategory.enumType, conversionRule := none,
    includeDirective := { isValid := false, toString := "#include <>" } }

/-- A value type whose converter is supplied by the user. -/
def demoMoneyEntry : TypeEntry :=
  { name := "Money", category := TypeCategory.value,
    conversionRule := some "// user converter for Money\n",
    includeDirective := { isValid := false, toString := "#include <>" } }

def demoShape : AbstractMetaClass :=
  { name := "Shape", qualifiedCppName := "Shape", package := "demo",
    typeEntry := demoShapeEntry, isNamespace := false, isAbstract := true,
    isQObject := false, hasPrivateDestructor := false, hasCloneOperator := false,
    enclosingClass := none, innerClasses := [], enums := [] }

def demoPoint : AbstractMetaClass :=
  { name := "Point", qualifiedCppName := "Point", package := "demo",
    typeEntry := demoPointEntry, isNamespace := false, isAbstract := false,
    isQObject := false, hasPrivateDestructor := false, hasCloneOperator := true,
    enclosingClass := none, innerClasses := [], enums := [] }

def demoIntType : AbstractMetaType := { name := "int", isObject := false, isQObject := false }

def demoStrType : AbstractMetaType := { name := "Str", isObject := false, isQObject := false }

def demoDoubleType : AbstractMetaType :=
  { name := "double", isObject := false, isQObject := false }

/-- The constructor `Point(int)`. -/
def demoPointFromInt : AbstractMetaFunction :=
  { name := "Point", isPrivate := false, isModifiedRemoved := false, isAbstract := false,
    isCopyConstructor := false, isConstructor := true, isVirtual := false, type := none,
    arguments := [{ type := demoIntType }], ownerClass := 1, implementingClass := 1 }

/-- The constructor `Point(Str)`, removed by the type system. -/
def demoPointFromStr : AbstractMetaFunction :=
  { name := "Point", isPrivate := false, isModifiedRemoved := true, isAbstract := false,
    isCopyConstructor := false, isConstructor := true, isVirtual := false, type := none,
    arguments := [{ type := demoStrType }], ownerClass := 1, implementingClass := 1 }

def demoConvInt : ImplicitConversion := ⟨demoPointFromInt, List.cons_ne_nil _ _⟩

def demoConvStr : ImplicitConversion := ⟨demoPointFromStr, List.cons_ne_nil _ _⟩

/-- A generator over the classes `Shape` (address 0) and `Point` (address 1);
`convs` is the implicit-conversion list of `Point`. -/
def demoGenerator (convs : List ImplicitConversion) : Generator :=
  { indent := demoIndent
    classAt := fun p => if p = 0 then demoShape else demoPoint
    findClass := fun n => if n = "Shape" then some 0 else if n = "Point" then some 1 else none
    implicitConversions := fun t => if t.name = "Point" then convs else []
    functionSignature := fun f => f.name ++ "()"
    signatureForDefaultVirtualMethod := fun f a b => a ++ f.name ++ b ++ "(Shape& self)"
    writeFunctionCall := fun f => f.name ++ "()"
    functionReturnType := fun f =>
      match f.type with
      | some t => t.name
      | none => "void"
    cpythonTypeName := fun t => "Py" ++ t.name ++ "_Type"
    cpythonCheckFunction := fun t => "Py" ++ t.name ++ "_Check"
    cpythonCheckFunctionMetaType := fun t => "Py" ++ t.name ++ "_Check"
    writeBaseConversion := fun t => "Converter<" ++ t.name ++ " >::" }

/-- The pure virtual `Shape::area()`, removed by the type system. -/
def demoArea : AbstractMetaFunction :=
  { name := "area", isPrivate := false, isModifiedRemoved := true, isAbstract := true,
    isCopyConstructor := false, isConstructor := false, isVirtual := false,
    type := some demoDoubleType, arguments := [], ownerClass := 0, implementingClass := 0 }

/-- A virtual `Shape::name()` implemented in `Shape`. -/
def demoName : AbstractMetaFunction :=
  { name := "name", isPrivate := false, isModifiedRemoved := false, isAbstract := false,
    isCopyConstructor := false, isConstructor := false, isVirtual := true,
    type := some demoStrType, arguments := [], ownerClass := 0, implementingClass := 0 }

/-- A private virtual `Shape::secret()` implemented in `Shape`. -/
def demoSecret : AbstractMetaFunction :=
  { name := "secret", isPrivate := true, isModifiedRemoved := false, isAbstract := false,
    isCopyConstructor := false, isConstructor := false, isVirtual := true,
    type := some demoIntType, arguments := [], ownerClass := 0, implementingClass := 0 }

/-! ## Texts used to state what the writers emit -/

/-- The declaration line of a function: the indentation, `virtual ` for a
virtual or abstract function, the signature, `;` and a line end. -/
def declarationText (g : Generator) (INDENT : Nat) (func : AbstractMetaFunction) : String :=
  g.indent INDENT ++ (if func.isVirtual || func.isAbstract then "virtual " else "")
    ++ g.functionSignature func ++ ";\n"

/-- A static `_dispatcher` function whose only statement is `body`, preceded by
`return ` when the function has a return type. -/
def dispatcherText (g : Generator) (INDENT : Nat) (func : AbstractMetaFunction)
    (body : String) : String :=
  g.indent INDENT ++ "static " ++ g.signatureForDefaultVirtualMethod func "" "_dispatcher"
    ++ " \x7b\n" ++ g.indent (INDENT + 1) ++ (if func.type.isSome then "return " else "")
    ++ body ++ ";\n" ++ g.indent INDENT ++ "\x7d\n"

/-- The scope-qualified call `self.<implementing class>::<call>`. -/
def callThroughBody (g : Generator) (func : AbstractMetaFunction) : String :=
  "self." ++ (g.classAt func.implementingClass).qualifiedCppName ++ "::"
    ++ g.writeFunctionCall func

/-- The default value: `0` for an object, QObject or `void` return type,
otherwise the default-constructed return type. -/
def defaultValueBody (g : Generator) (func : AbstractMetaFunction) : String :=
  if (match func.type with
      | some t => t.isObject || t.isQObject || t.name == "void"
      | none => false) then "0"
  else g.functionReturnType func ++ "()"

/-- The members a converter specialization can have. -/
structure ConverterSpec where
  isConvertible : Bool
  createWrapper : Bool
  toPython : Bool
  toCpp : Bool
  copyCppObject : Bool
  deriving DecidableEq

/-- The member set that section 4.1 of the specification requires for a type
with the given implicit-conversion list: `createWrapper` always,
`isConvertible` iff the list is non-empty, `toPython` iff the type is a value
type, `toCpp` and `copyCppObject` iff it is a value type with a non-empty
list. -/
def specRequiredMembers (type : TypeEntry) (convs : List ImplicitConversion) : ConverterSpec :=
  { isConvertible := !convs.isEmpty
    createWrapper := true
    toPython := type.isValue
    toCpp := type.isValue && !convs.isEmpty
    copyCppObject := type.isValue && !convs.isEmpty }

/-- The pointer qualifier of the template argument: `*` for an object type or a
type whose class is abstract. -/
def pointerQualifier (g : Generator) (type : TypeEntry) : String :=
  if ((match g.findClass type.name with
       | some c => (g.classAt c).isAbstract
       | none => false) || type.isObject) then "*" else ""

/-- The parameter type of `createWrapper`: the type itself for an enum or flag,
`const T*` otherwise. -/
def createWrapperArgument (type : TypeEntry) : String :=
  if !type.isEnum && !type.isFlags then "const " ++ type.name ++ "*" else type.name

/-- The opening of a converter declaration, up to and including the brace. -/
def converterDeclHead (g : Generator) (type : TypeEntry) : String :=
  "template<>" ++ "\n" ++ "struct Converter<" ++ type.name ++ pointerQualifier g type ++ " > : "
    ++ (if type.isEnum || type.isFlags then "Converter_CppEnum" else "ConverterBase")
    ++ "<" ++ type.name ++ pointerQualifier g type ++ " >" ++ "\n" ++ "\x7b" ++ "\n"

def isConvertibleDeclText (g : Generator) (INDENT : Nat) : String :=
  g.indent INDENT ++ "static bool isConvertible(PyObject* pyobj);" ++ "\n"

def createWrapperDeclText (g : Generator) (INDENT : Nat) (type : TypeEntry) : String :=
  g.indent INDENT ++ "static PyObject* createWrapper(" ++ createWrapperArgument type
    ++ " cppobj);" ++ "\n"

def copyCppObjectDeclText (g : Generator) (INDENT : Nat) (type : TypeEntry) : String :=
  g.indent INDENT ++ "static " ++ type.name ++ "* copyCppObject(const " ++ type.name
    ++ "& cppobj);" ++ "\n"

def toPythonDeclText (g : Generator) (INDENT : Nat) (type : TypeEntry) : String :=
  g.indent INDENT ++ "static PyObject* toPython(const " ++ type.name ++ "& cppobj);" ++ "\n"

def toCppDeclText (g : Generator) (INDENT : Nat) (type : TypeEntry) : String :=
  g.indent INDENT ++ "static " ++ type.name ++ " toCpp(PyObject* pyobj);" ++ "\n"

/-- The member declarations of a member set, in the order in which a converter
declaration lists them. -/
def memberDeclarations (g : Generator) (INDENT : Nat) (type : TypeEntry)
    (m : ConverterSpec) : String :=
  (if m.isConvertible then isConvertibleDeclText g INDENT else "")
    ++ (if m.createWrapper then createWrapperDeclText g INDENT type else "")
    ++ (if m.copyCppObject then copyCppObjectDeclText g INDENT type else "")
    ++ (if m.toPython then toPythonDeclText g INDENT type else "")
    ++ (if m.toCpp then toCppDeclText g INDENT type else "")

/-- The construction call of the object-wrapper path, up to the argument. -/
def baseWrapperCall (g : Generator) (type : TypeEntry) : String :=
  "PyBaseWrapper_New(&" ++ g.cpythonTypeName type ++ ", &" ++ g.cpythonTypeName type ++ ","

/-- The construction call of the enum path, up to the argument: the type
object, the label and the cast to `long`. -/
def enumObjectCall (g : Generator) (INDENT : Nat) (type : TypeEntry) : String :=
  "PyEnumObject_New(" ++ "\n" ++ g.indent (INDENT + 2) ++ "&" ++ g.cpythonTypeName type ++ ","
    ++ "\n" ++ g.indent (INDENT + 2) ++ "\"ReturnedValue\", (long)"

/-- The implementation of `createWrapper` whose return statement uses the
construction call `call`. -/
def createWrapperImplText (g : Generator) (INDENT : Nat) (type : TypeEntry)
    (call : String) : String :=
  "inline PyObject* Converter<" ++ type.name ++ pointerQualifier g type
    ++ " >::createWrapper(" ++ createWrapperArgument type ++ " cppobj)" ++ "\n" ++ "\x7b" ++ "\n"
    ++ g.indent INDENT ++ "return " ++ "Shiboken::" ++ call ++ " cppobj);" ++ "\n"
    ++ "\x7d" ++ "\n" ++ "\n"

/-- The type check of one conversion: the check function of its first-argument
type applied to `pyobj`. -/
def conversionCheck (g : Generator) (c : ImplicitConversion) : String :=
  g.cpythonCheckFunctionMetaType c.firstArgumentType ++ "(pyobj)"

/-- The implementation of `isConvertible` returning the disjunction of the
given checks. -/
def isConvertibleImplText (g : Generator) (INDENT : Nat) (type : TypeEntry)
    (checks : List String) : String :=
  "inline bool Converter<" ++ type.name ++ " >::isConvertible(PyObject* pyobj)" ++ "\n"
    ++ "\x7b" ++ "\n" ++ g.indent INDENT ++ "return "
    ++ String.intercalate ("\n" ++ g.indent (INDENT + 1) ++ " || ") checks
    ++ ";" ++ "\n" ++ "\x7d" ++ "\n" ++ "\n"

def toPythonImplText (g : Generator) (INDENT : Nat) (type : TypeEntry) : String :=
  "inline PyObject* Converter<" ++ type.name ++ " >::toPython(const " ++ type.name
    ++ "& cppobj)" ++ "\n" ++ "\x7b" ++ "\n" ++ g.indent INDENT ++ "return Converter<"
    ++ type.name ++ " >::createWrapper(new " ++ type.name ++ "(cppobj));" ++ "\n"
    ++ "\x7d" ++ "\n" ++ "\n"

/-- One conditional branch of `toCpp`: the test of the conversion's
first-argument type and the converting return. -/
def toCppBranch (g : Generator) (INDENT : Nat) (type : TypeEntry)
    (c : ImplicitConversion) : String :=
  "if (" ++ g.cpythonCheckFunctionMetaType c.firstArgumentType ++ "(pyobj))" ++ "\n"
    ++ g.indent (INDENT + 1) ++ "return " ++ type.name
    ++ "(" ++ g.writeBaseConversion c.firstArgumentType ++ "toCpp(pyobj));" ++ "\n"

/-- The implementation of `toCpp` with the given conditional branches, chained
by `else`, and the unconditional fallback. -/
def toCppImplText (g : Generator) (INDENT : Nat) (type : TypeEntry)
    (branches : List String) : String :=
  "inline " ++ type.name ++ " Converter<" ++ type.name ++ " >::toCpp(PyObject* pyobj)" ++ "\n"
    ++ "\x7b" ++ "\n" ++ g.indent INDENT
    ++ String.intercalate (g.indent INDENT ++ "else ") branches
    ++ g.indent INDENT ++ "return *Converter<" ++ type.name ++ "* >::toCpp(pyobj);" ++ "\n"
    ++ "\x7d" ++ "\n" ++ "\n"

def copyCppObjectImplText (g : Generator) (INDENT : Nat) (type : TypeEntry) : String :=
  "inline " ++ type.name ++ "* Converter<" ++ type.name ++ " >::copyCppObject(const "
    ++ type.name ++ "& cppobj)" ++ "\n" ++ "\x7b" ++ "\n" ++ g.indent INDENT ++ "return new "
    ++ type.name ++ "(cppobj);" ++ "\n" ++ "\x7d" ++ "\n" ++ "\n"

/-- The conversions that are not modified-removed, in list order. -/
def keptConversions (convs : List ImplicitConversion) : List ImplicitConversion :=
  convs.filter (fun c => !c.ctor.isModifiedRemoved)

/-- Everything `writeTypeConverterImpl` writes after `createWrapper` and
`isConvertible`: for a value type `toPython`, followed by `toCpp` and
`copyCppObject` when there are implicit conversions. -/
def valueMembersImplText (g : Generator) (INDENT : Nat) (type : TypeEntry) : String :=
  if type.isValue then
    toPythonImplText g INDENT type
      ++ (if !(g.implicitConversions type).isEmpty then
            toCppImplText g INDENT type
                ((keptConversions (g.implicitConversions type)).map (toCppBranch g INDENT type))
              ++ copyCppObjectImplText g INDENT type
          else "")
  else ""

/-- Number of positions of `text` at which `pat` starts. -/
def countOccurrencesAux (pat : List Char) : List Char → Nat
  | [] => 0
  | c :: cs => (if pat.isPrefixOf (c :: cs) then 1 else 0) + countOccurrencesAux pat cs

def countOccurrences (pat text : String) : Nat := countOccurrencesAux pat.data text.data

/-- The member implementations of a member set, in the order in which
`writeTypeConverterImpl` writes them. -/
def memberImplementations (g : Generator) (INDENT : Nat) (type : TypeEntry)
    (m : ConverterSpec) : String :=
  (if m.createWrapper then
      createWrapperImplText g INDENT type
        (if type.isObject || type.isValue then baseWrapperCall g type
         else enumObjectCall g INDENT type)
    else "")
    ++ (if m.isConvertible then
          isConvertibleImplText g INDENT type
            ((g.implicitConversions type).map (conversionCheck g))
        else "")
    ++ (if m.toPython then toPythonImplText g INDENT type else "")
    ++ (if m.toCpp then
          toCppImplText g INDENT type
            ((keptConversions (g.implicitConversions type)).map (toCppBranch g INDENT type))
        else "")
    ++ (if m.copyCppObject then copyCppObjectImplText g INDENT type else "")

/-- An abstract class `Figure` bound as a value type. -/
def demoFigureEntry : TypeEntry :=
  { name := "Figure", category := TypeCategory.value, conversionRule := none,
    includeDirective := { isValid := true, toString := "#include <figure.h>" } }

def demoFigure : AbstractMetaClass :=
  { name := "Figure", qualifiedCppName := "Figure", package := "demo",
    typeEntry := demoFigureEntry, isNamespace := false, isAbstract := true,
    isQObject := false, hasPrivateDestructor := false, hasCloneOperator := false,
    enclosingClass := none, innerClasses := [], enums := [] }

/-- A generator whose only class is `Figure` (at every address). -/
def demoFigureGenerator : Generator :=
  { demoGenerator [] with
    classAt := fun _ => demoFigure
    findClass := fun n => if n = "Figure" then some 0 else none }

/-! ## Texts and lists used to state what `finishGeneration` collects -/

/-- The texts of a list, one after the other. -/
def concatAll : List String → String
  | [] => ""
  | a :: l => a ++ concatAll l

/-- A loop body that leaves the streams with a text appended each, and updates
the package name and the include set by `fp` and `fe`. -/
def appendStep {α : Type} (fp : String → α → String) (fe : List String → α → List String)
    (dc dp dd di : α → String) (st : FinishState) (x : α) : FinishState :=
  { m_packageName := fp st.m_packageName x
    classIncludes := st.classIncludes ++ dc x
    enumIncludes := fe st.enumIncludes x
    pythonTypeStuff := st.pythonTypeStuff ++ dp x
    convertersDecl := st.convertersDecl ++ dd x
    convertersImpl := st.convertersImpl ++ di x }

/-- The test of lines 361-362 that lets a class into the module header. -/
def isEligible (h : HeaderGen) (p : ClassPtr) : Bool :=
  h.shouldGenerate p && (h.classAt p).enclosingClass.isNone &&
    ((h.classAt p).typeEntry.isObject || (h.classAt p).typeEntry.isValue ||
      (h.classAt p).typeEntry.isNamespace)

/-- The update of the stored package name by one class. -/
def packageStep (h : HeaderGen) (name : String) (p : ClassPtr) : String :=
  if isEligible h p then (if name = "" then (h.classAt p).package else name) else name

/-- The update of the enum include set by one global enum. -/
def enumIncludeStep (h : HeaderGen) (set : List String) (e : AbstractMetaEnum) : List String :=
  if lastPathComponent h.separator e.includeFile ≠ "" then qsetInsert set e.includeFile
  else set

/-- The inner classes of a class for which code is generated. -/
def generatedInnerClasses (h : HeaderGen) (p : ClassPtr) : List ClassPtr :=
  (h.classAt p).innerClasses.filter h.shouldGenerate

/-- The type entries for which one enum gets converters: its own entry and its
flags entry, if it has one. -/
def enumConvertedEntries (e : AbstractMetaEnum) : List TypeEntry :=
  e.typeEntry.entry ::
    (match e.typeEntry.flags with
     | some f => [f.entry]
     | none => [])

/-- The groups of type entries for which one class gets converters; in the
declarations each group is followed by a line end: one group per member enum,
and for a class that is not a namespace one group per generated inner class
and one for the class itself. -/
def classConverterGroups (h : HeaderGen) (p : ClassPtr) : List (List TypeEntry) :=
  if isEligible h p then
    (h.classAt p).enums.map enumConvertedEntries
      ++ (if (h.classAt p).isNamespace then []
          else (generatedInnerClasses h p).map (fun q => [(h.classAt q).typeEntry])
            ++ [[(h.classAt p).typeEntry]])
  else []

/-- The groups of type entries for which `finishGeneration` writes converters,
in the order of writing. -/
def converterGroups (h : HeaderGen) : List (List TypeEntry) :=
  h.globalEnums.map (fun e => [e.typeEntry.entry])
    ++ (h.classes.map (classConverterGroups h)).flatten

/-- The type-check macro of an enum and its line end. -/
def enumTypeStuff (h : HeaderGen) (e : AbstractMetaEnum) : String :=
  writeTypeCheckMacro h.toGenerator "" e.typeEntry.entry ++ "\n"

/-- The `_New` prototype and the type-check macro of a class. -/
def classTypeStuff (h : HeaderGen) (q : ClassPtr) : String :=
  "PyAPI_FUNC(PyObject*) " ++ h.cpythonBaseName (h.classAt q).typeEntry
    ++ "_New(PyTypeObject* type, PyObject* args, PyObject* kwds);" ++ "\n"
    ++ writeTypeCheckMacro h.toGenerator "" (h.classAt q).typeEntry

/-- The pointer-cast macro of a class. -/
def cptrMacro (h : HeaderGen) (p : ClassPtr) : String :=
  "#define Py" ++ (h.classAt p).name ++ "_cptr(pyobj) ((" ++ (h.classAt p).name
    ++ "*)PyBaseWrapper_cptr(pyobj))" ++ "\n" ++ "\n"

/-- What one class adds to the class includes. -/
def classIncludesOf (h : HeaderGen) (p : ClassPtr) : String :=
  if isEligible h p then
    (if (h.classAt p).typeEntry.includeDirective.isValid then
        (h.classAt p).typeEntry.includeDirective.toString ++ "\n"
      else "")
      ++ (if (h.classAt p).isNamespace then ""
          else concatAll ((generatedInnerClasses h p).map
            (fun q => (h.classAt q).typeEntry.includeDirective.toString ++ "\n")))
  else ""

/-- What one class adds to the type-registration block. -/
def classTypeStuffOf (h : HeaderGen) (p : ClassPtr) : String :=
  if isEligible h p then
    concatAll ((h.classAt p).enums.map (enumTypeStuff h))
      ++ (if (h.classAt p).isNamespace then ""
          else concatAll ((generatedInnerClasses h p).map (classTypeStuff h))
            ++ (classTypeStuff h p ++ cptrMacro h p))
  else ""

/-- The converter declarations of a list of groups. -/
def groupDeclarations (g : Generator) (INDENT : Nat) (groups : List (List TypeEntry)) : String :=
  concatAll (groups.map
    (fun grp => concatAll (grp.map (writeTypeConverterDecl g INDENT "")) ++ "\n"))

/-- The converter implementations of a list of type entries. -/
def entryImplementations (g : Generator) (INDENT : Nat) (entries : List TypeEntry) : String :=
  concatAll (entries.map (writeTypeConverterImpl g INDENT ""))

/-- The category test of the converter invariant: object, value, enum or
flag. -/
def hasConverterCategory (t : TypeEntry) : Bool :=
  t.isObject || t.isValue || t.isEnum || t.isFlags

/-- The fixed opening of the module header, up to the class includes. -/
def headerProlog (h : HeaderGen) (includeShield : String) : String :=
  h.licenseComment ++ "\n" ++ "\n" ++ "#ifndef " ++ includeShield ++ "\n" ++ "#define "
    ++ includeShield ++ "\n" ++ "\n" ++ "#include <Python.h>" ++ "\n"
    ++ "#include <conversions.h>" ++ "\n" ++ "#include <pyenum.h>" ++ "\n"
    ++ "#include <basewrapper.h>" ++ "\n" ++ "#include <bindingmanager.h>" ++ "\n" ++ "\n"
    ++ "#include <memory>" ++ "\n" ++ "\n"

/-- The include line of the module header for one element of the enum include
set. -/
def enumIncludeLine (inc : String) : String := enumIncludeWriteStep "" inc

/-- The includes of a registry of primitive or container types under their
banner; nothing for an empty registry. -/
def conversionIncludes (banner : String) (types : List TypeEntry) : String :=
  if !types.isEmpty then
    banner ++ "\n"
      ++ concatAll (types.map (typeIncludeWriteStep ""))
      ++ "\n"
  else ""

/-- The user-defined conversion rules of the type database. -/
def userConverters (entries : List TypeEntry) : String :=
  concatAll (entries.map (conversionRuleWriteStep ""))

/-- The module header after the class and enum includes. -/
def headerEpilog (h : HeaderGen) (st : FinishState) (includeShield : String) : String :=
  conversionIncludes "// Conversion Includes - Primitive Types" h.primitiveTypes
    ++ conversionIncludes "// Conversion Includes - Container Types" h.containerTypes
    ++ "extern \"C\"" ++ "\n" ++ "\x7b" ++ "\n" ++ "\n" ++ st.pythonTypeStuff ++ "\n"
    ++ "\x7d // extern \"C\"" ++ "\n" ++ "\n" ++ "namespace Shiboken" ++ "\n" ++ "\x7b" ++ "\n"
    ++ "\n" ++ "// Generated converters declarations ----------------------------------"
    ++ "\n" ++ "\n" ++ st.convertersDecl ++ "\n"
    ++ "// User defined converters --------------------------------------------" ++ "\n"
    ++ userConverters h.typeDatabaseEntries
    ++ "// Generated converters implementations -------------------------------"
    ++ "\n" ++ "\n" ++ st.convertersImpl ++ "\n" ++ "\x7d // namespace Shiboken" ++ "\n" ++ "\n"
    ++ "#endif // " ++ includeShield ++ "\n" ++ "\n"

/-- The `#define protected public` lines of a wrapper header. -/
def protectedHackText : String :=
  "// The mother of all C++ binding hacks!" ++ "\n" ++ "#define protected public" ++ "\n" ++ "\n"

/-- The wrapper class body of a wrapper header: the class head, the copy
constructor of a class with clone operator, the functions, the destructor,
`using QObject::parent;` for a QObject class other than `QObject`, the
prototype snips and the closing brace. -/
def wrapperClassText (h : HeaderGen) (INDENT : Nat) (p : ClassPtr) : String :=
  "class SHIBOKEN_LOCAL " ++ h.wrapperName p ++ " : public " ++ (h.classAt p).qualifiedCppName
    ++ "\n" ++ "\x7b" ++ "\n" ++ "public:" ++ "\n"
    ++ (if (h.classAt p).hasCloneOperator then writeCopyCtor h (INDENT + 1) "" p else "")
    ++ concatAll ((h.filterFunctions p).map (writeFunction h.toGenerator (INDENT + 1) ""))
    ++ h.indent (INDENT + 1) ++ "~" ++ h.wrapperName p ++ "();" ++ "\n"
    ++ (if (h.classAt p).isQObject && (h.classAt p).name != "QObject" then
          h.indent (INDENT + 1) ++ "using QObject::parent;" ++ "\n"
        else "")
    ++ h.writeCodeSnips (INDENT + 1) (h.classAt p).typeEntry
      CodeSnipPosition.PrototypeInitialization
    ++ "\x7d;" ++ "\n" ++ "\n"

/-! ## A concrete metamodel for the module header -/

def demoOuterEntry : TypeEntry :=
  { name := "Outer", category := TypeCategory.value, conversionRule := none,
    includeDirective := { isValid := true, toString := "#include <outer.h>" } }

def demoInnerEntry : TypeEntry :=
  { name := "Outer::Inner", category := TypeCategory.object, conversionRule := none,
    includeDirective := { isValid := true, toString := "#include <outer.h>" } }

def demoGeoEntry : TypeEntry :=
  { name := "Geo", category := TypeCategory.namespaceType, conversionRule := none,
    includeDirective := { isValid := false, toString := "#include <>" } }

def demoUnitEntry : TypeEntry :=
  { name := "Geo::Unit", category := TypeCategory.enumType, conversionRule := none,
    includeDirective := { isValid := false, toString := "#include <>" } }

def demoSpotEntry : TypeEntry :=
  { name := "Geo::Spot", category := TypeCategory.value, conversionRule := none,
    includeDirective := { isValid := true, toString := "#include <geo.h>" } }

def demoBoxEntry : TypeEntry :=
  { name := "Box", category := TypeCategory.value, conversionRule := none,
    includeDirective := { isValid := true, toString := "#include <box.h>" } }

/-- The type entry of `Box::Items`, a container type. -/
def demoItemsEntry : TypeEntry :=
  { name := "Box::Items", category := TypeCategory.container, conversionRule := none,
    includeDirective := { isValid := true, toString := "#include <box.h>" } }

/-- The enum `Geo::Unit`, a member of the namespace `Geo`. -/
def demoUnitEnum : AbstractMetaEnum :=
  { includeFile := "geo.h", typeEntry := ⟨demoUnitEntry, rfl, none⟩ }

/-- The global enum `Color`, declared in `gfx/colors.h`. -/
def demoColorEnum : AbstractMetaEnum :=
  { includeFile := "gfx/colors.h", typeEntry := ⟨demoColorEntry, rfl, none⟩ }

/-- The value class `Outer` (address 1) with the inner class `Outer::Inner`. -/
def demoOuter : AbstractMetaClass :=
  { name := "Outer", qualifiedCppName := "Outer", package := "demo",
    typeEntry := demoOuterEntry, isNamespace := false, isAbstract := false,
    isQObject := false, hasPrivateDestructor := false, hasCloneOperator := false,
    enclosingClass := none, innerClasses := [2], enums := [] }

/-- The object class `Outer::Inner` (address 2), declared in the header of
`Outer`. -/
def demoInner : AbstractMetaClass :=
  { name := "Inner", qualifiedCppName := "Outer::Inner", package := "demo",
    typeEntry := demoInnerEntry, isNamespace := false, isAbstract := false,
    isQObject := false, hasPrivateDestructor := false, hasCloneOperator := false,
    enclosingClass := some 1, innerClasses := [], enums := [] }

/-- The namespace `Geo` (address 3) with the enum `Unit` and the class `Spot`. -/
def demoGeo : AbstractMetaClass :=
  { name := "Geo", qualifiedCppName := "Geo", package := "demo",
    typeEntry := demoGeoEntry, isNamespace := true, isAbstract := false,
    isQObject := false, hasPrivateDestructor := false, hasCloneOperator := false,
    enclosingClass := none, innerClasses := [4], enums := [demoUnitEnum] }

/-- The value class `Geo::Spot` (address 4). -/
def demoSpot : AbstractMetaClass :=
  { name := "Spot", qualifiedCppName := "Geo::Spot", package := "demo",
    typeEntry := demoSpotEntry, isNamespace := false, isAbstract := false,
    isQObject := false, hasPrivateDestructor := false, hasCloneOperator := false,
    enclosingClass := some 3, innerClasses := [], enums := [] }

/-- The value class `Box` (address 5) with the inner class `Box::Items`. -/
def demoBox : AbstractMetaClass :=
  { name := "Box", qualifiedCppName := "Box", package := "demo",
    typeEntry := demoBoxEntry, isNamespace := false, isAbstract := false,
    isQObject := false, hasPrivateDestructor := false, hasCloneOperator := false,
    enclosingClass := none, innerClasses := [6], enums := [] }

/-- The inner class `Box::Items` (address 6), bound as a container type. -/
def demoItems : AbstractMetaClass :=
  { name := "Items", qualifiedCppName := "Box::Items", package := "demo",
    typeEntry := demoItemsEntry, isNamespace := false, isAbstract := false,
    isQObject := false, hasPrivateDestructor := false, hasCloneOperator := false,
    enclosingClass := some 5, innerClasses := [], enums := [] }

/-- The class memory of the module-header metamodel. -/
def demoClassAt (p : ClassPtr) : AbstractMetaClass :=
  if p = 0 then demoShape
  else if p = 1 then demoOuter
  else if p = 2 then demoInner
  else if p = 3 then demoGeo
  else if p = 4 then demoSpot
  else if p = 5 then demoBox
  else demoItems

/-- A header generator over the class memory `demoClassAt`, for the given
class list and global enums; code is generated for every class. -/
def demoHeaderGen (classes : List ClassPtr) (globalEnums : List AbstractMetaEnum) : HeaderGen :=
  { toGenerator :=
      { demoGenerator [] with
        classAt := demoClassAt
        findClass := fun n => if n = "Shape" then some 0 else none }
    licenseComment := "// license\n"
    wrapperName := fun p => (demoClassAt p).name ++ "Wrapper"
    filterFunctions := fun p => if p = 0 then [demoArea, demoName, demoSecret] else []
    writeCodeSnips := fun _ _ _ => ""
    cpythonBaseName := fun t => "Py" ++ t.name
    shouldGenerate := fun _ => true
    globalEnums := globalEnums
    classes := classes
    primitiveTypes := []
    containerTypes := []
    typeDatabaseEntries := []
    separator := '/'
    outputDirectory := "out"
    subDirectoryForPackage := fun pkg => pkg
    moduleName := fun pkg => pkg
    fileOpens := fun _ => true }

/-! ## Shared lemmas -/

theorem writeVirtualDispatcher_eq (g : Generator) (n : Nat) (s : String)
    (f : AbstractMetaFunction) :
    writeVirtualDispatcher g n s f =
      s ++ dispatcherText g n f
        (if f.isModifiedRemoved && f.isAbstract then defaultValueBody g f
         else callThroughBody g f) := by
  unfold writeVirtualDispatcher dispatcherText defaultValueBody callThroughBody
  by_cases h1 : (f.isModifiedRemoved && f.isAbstract) = true
  · simp only [if_pos h1]
    split <;>
      (apply String.ext; simp only [String.data_append, List.append_assoc]; rfl)
  · simp only [if_neg h1]
    apply String.ext; simp only [String.data_append, List.append_assoc]; rfl

theorem length_dispatcherText_pos (g : Generator) (n : Nat) (f : AbstractMetaFunction)
    (body : String) : 0 < (dispatcherText g n f body).length := by
  unfold dispatcherText
  simp only [String.length_append]
  have : ("\x7d\n" : String).length = 2 := by decide
  omega

theorem length_declarationText_pos (g : Generator) (n : Nat) (f : AbstractMetaFunction) :
    0 < (declarationText g n f).length := by
  unfold declarationText
  simp only [String.length_append]
  have : (";\n" : String).length = 2 := by decide
  omega

/-- What `writeFunction` writes for a function that is not skipped. -/
theorem writeFunction_eq (g : Generator) (n : Nat) (s : String) (f : AbstractMetaFunction)
    (hp : f.isPrivate = false) (hr : ¬ (f.isModifiedRemoved = true ∧ f.isAbstract = false))
    (hc : f.isCopyConstructor = false) :
    writeFunction g n s f =
      if f.isConstructor || f.isAbstract || f.isVirtual then
        if f.isVirtual && !f.isAbstract && !f.isConstructor &&
            !(g.classAt f.ownerClass).hasPrivateDestructor &&
            f.implementingClass == f.ownerClass then
          writeVirtualDispatcher g n (s ++ declarationText g n f) f
        else s ++ declarationText g n f
      else s := by
  have hr2 : (f.isModifiedRemoved && !f.isAbstract) = false := by
    cases h1 : f.isModifiedRemoved <;> cases h2 : f.isAbstract <;> simp_all
  unfold writeFunction declarationText
  simp only [hp, hr2, hc, Bool.or_self, Bool.false_eq_true, if_false]
  have e : (if (f.isVirtual || f.isAbstract) = true then s ++ g.indent n ++ "virtual "
        else s ++ g.indent n) ++ g.functionSignature f ++ ";" ++ "\n" =
      s ++ (g.indent n ++ (if (f.isVirtual || f.isAbstract) = true then "virtual " else "")
        ++ g.functionSignature f ++ ";\n") := by
    split <;>
      (apply String.ext; simp only [String.data_append, List.append_assoc]; rfl)
  rw [e]

theorem dispatchCondition_iff (g : Generator) (f : AbstractMetaFunction) :
    (f.isVirtual && !f.isAbstract && !f.isConstructor &&
        !(g.classAt f.ownerClass).hasPrivateDestructor &&
        f.implementingClass == f.ownerClass) = true ↔
      (f.isVirtual = true ∧ f.isAbstract = false ∧ f.isConstructor = false ∧
        (g.classAt f.ownerClass).hasPrivateDestructor = false ∧
        f.implementingClass = f.ownerClass) := by
  simp [Bool.and_eq_true, and_assoc]

theorem writeFunction_of_skip (g : Generator) (n : Nat) (s : String)
    (f : AbstractMetaFunction)
    (h : f.isPrivate = true ∨ (f.isModifiedRemoved = true ∧ f.isAbstract = false) ∨
      f.isCopyConstructor = true) :
    writeFunction g n s f = s := by
  unfold writeFunction
  rcases h with h | ⟨h1, h2⟩ | h
  · simp [h]
  · simp [h1, h2]
  · simp [h]

theorem intercalate_go_append (sep : String) (l : List String) (u x : String) :
    String.intercalate.go (u ++ x) sep l = u ++ String.intercalate.go x sep l := by
  induction l generalizing x with
  | nil => rfl
  | cons a l ih =>
    simp only [String.intercalate.go]
    rw [← ih]
    simp only [String.append_assoc]

theorem foldl_isConvertibleStep_false (g : Generator) (n : Nat) (cs : List ImplicitConversion)
    (u : String) :
    (cs.foldl (isConvertibleStep g n) (u, false)).1 =
      String.intercalate.go u ("\n" ++ g.indent (n + 1) ++ " || ")
        (cs.map (conversionCheck g)) := by
  induction cs generalizing u with
  | nil => rfl
  | cons c cs ih =>
    simp only [List.foldl_cons, List.map_cons, String.intercalate.go]
    have e : isConvertibleStep g n (u, false) c =
        (u ++ ("\n" ++ g.indent (n + 1) ++ " || ") ++ conversionCheck g c, false) := by
      simp only [isConvertibleStep, conversionCheck, Bool.false_eq_true, if_false,
        String.append_assoc]
    rw [e, ih]

theorem foldl_isConvertibleStep (g : Generator) (n : Nat) (cs : List ImplicitConversion)
    (u : String) :
    (cs.foldl (isConvertibleStep g n) (u, true)).1 =
      u ++ String.intercalate ("\n" ++ g.indent (n + 1) ++ " || ")
        (cs.map (conversionCheck g)) := by
  cases cs with
  | nil => simp [String.intercalate]
  | cons c cs =>
    simp only [List.foldl_cons, List.map_cons, String.intercalate]
    have e : isConvertibleStep g n (u, true) c = (u ++ conversionCheck g c, false) := by
      simp only [isConvertibleStep, conversionCheck, if_true, String.append_assoc]
    rw [e, foldl_isConvertibleStep_false, intercalate_go_append]

theorem foldl_toCppStep_false (g : Generator) (n : Nat) (t : TypeEntry)
    (cs : List ImplicitConversion) (u : String) :
    (cs.foldl (toCppStep g n t) (u, false)).1 =
      String.intercalate.go u (g.indent n ++ "else ")
        ((keptConversions cs).map (toCppBranch g n t)) := by
  induction cs generalizing u with
  | nil => rfl
  | cons c cs ih =>
    by_cases hrem : c.ctor.isModifiedRemoved = true
    · have e : toCppStep g n t (u, false) c = (u, false) := by
        simp only [toCppStep, hrem, if_true]
      have k : keptConversions (c :: cs) = keptConversions cs := by
        simp [keptConversions, hrem]
      rw [List.foldl_cons, e, ih, k]
    · have e : toCppStep g n t (u, false) c =
          (u ++ (g.indent n ++ "else ") ++ toCppBranch g n t c, false) := by
        simp only [toCppStep, hrem, Bool.false_eq_true, if_false, toCppBranch,
          String.append_assoc]
      have k : keptConversions (c :: cs) = c :: keptConversions cs := by
        simp [keptConversions, hrem]
      rw [List.foldl_cons, e, ih, k]
      simp only [List.map_cons, String.intercalate.go]

theorem foldl_toCppStep (g : Generator) (n : Nat) (t : TypeEntry)
    (cs : List ImplicitConversion) (u : String) :
    (cs.foldl (toCppStep g n t) (u, true)).1 =
      u ++ String.intercalate (g.indent n ++ "else ")
        ((keptConversions cs).map (toCppBranch g n t)) := by
  induction cs with
  | nil => simp [keptConversions, String.intercalate]
  | cons c cs ih =>
    by_cases hrem : c.ctor.isModifiedRemoved = true
    · have e : toCppStep g n t (u, true) c = (u, true) := by
        simp only [toCppStep, hrem, if_true]
      have k : keptConversions (c :: cs) = keptConversions cs := by
        simp [keptConversions, hrem]
      rw [List.foldl_cons, e, ih, k]
    · have e : toCppStep g n t (u, true) c = (u ++ toCppBranch g n t c, false) := by
        simp only [toCppStep, hrem, Bool.false_eq_true, if_false, if_true, toCppBranch,
          String.append_assoc]
      have k : keptConversions (c :: cs) = c :: keptConversions cs := by
        simp [keptConversions, hrem]
      rw [List.foldl_cons, e, foldl_toCppStep_false, k, intercalate_go_append]
      simp only [List.map_cons, String.intercalate]

/-- The category tests exclude one another. -/
theorem category_flags (t : TypeEntry) :
    (t.isEnum = true ∧ t.isFlags = false ∧ t.isValue = false ∧ t.isObject = false) ∨
    (t.isEnum = false ∧ t.isFlags = true ∧ t.isValue = false ∧ t.isObject = false) ∨
    (t.isEnum = false ∧ t.isFlags = false ∧ t.isValue = true ∧ t.isObject = false) ∨
    (t.isEnum = false ∧ t.isFlags = false ∧ t.isValue = false ∧ t.isObject = true) ∨
    (t.isEnum = false ∧ t.isFlags = false ∧ t.isValue = false ∧ t.isObject = false) := by
  unfold TypeEntry.isEnum TypeEntry.isFlags TypeEntry.isValue TypeEntry.isObject
  cases t.category <;> decide

set_option maxHeartbeats 2000000 in
/-- What `writeTypeConverterDecl` writes, member by member. -/
theorem writeTypeConverterDecl_eq (g : Generator) (n : Nat) (s : String) (t : TypeEntry) :
    writeTypeConverterDecl g n s t =
      s ++ converterDeclHead g t
        ++ (if !(g.implicitConversions t).isEmpty then isConvertibleDeclText g n else "")
        ++ createWrapperDeclText g n t
        ++ (if t.isValue && !(g.implicitConversions t).isEmpty then
              copyCppObjectDeclText g n t else "")
        ++ (if t.isValue then toPythonDeclText g n t else "")
        ++ (if t.isValue && !(g.implicitConversions t).isEmpty then
              toCppDeclText g n t else "")
        ++ "\x7d;" ++ "\n" := by
  unfold writeTypeConverterDecl converterDeclHead isConvertibleDeclText createWrapperDeclText
    copyCppObjectDeclText toPythonDeclText toCppDeclText pointerQualifier createWrapperArgument
  dsimp only
  generalize (g.implicitConversions t).isEmpty = b
  generalize (match g.findClass t.name with
       | some c => (g.classAt c).isAbstract
       | none => false) = a
  rcases category_flags t with ⟨hE, hF, hV, hO⟩ | ⟨hE, hF, hV, hO⟩ | ⟨hE, hF, hV, hO⟩ |
      ⟨hE, hF, hV, hO⟩ | ⟨hE, hF, hV, hO⟩ <;> cases b <;>
    simp only [hE, hF, hV, hO, Bool.false_eq_true, if_false, if_true, Bool.not_true,
      Bool.not_false, Bool.or_false, Bool.or_true, Bool.and_false, Bool.and_true,
      Bool.or_self, Bool.and_self, String.append_assoc, String.append_empty,
      String.empty_append]

set_option maxHeartbeats 2000000 in
/-- What `writeTypeConverterImpl` writes for a type without conversion rule,
member by member. -/
theorem writeTypeConverterImpl_eq (g : Generator) (n : Nat) (s : String) (t : TypeEntry)
    (h : t.hasConversionRule = false) :
    writeTypeConverterImpl g n s t =
      s ++ createWrapperImplText g n t
          (if t.isObject || t.isValue then baseWrapperCall g t else enumObjectCall g n t)
        ++ (if !(g.implicitConversions t).isEmpty then
              isConvertibleImplText g n t ((g.implicitConversions t).map (conversionCheck g))
            else "")
        ++ valueMembersImplText g n t := by
  unfold writeTypeConverterImpl valueMembersImplText
  simp only [h, Bool.false_eq_true, if_false, foldl_isConvertibleStep, foldl_toCppStep]
  unfold createWrapperImplText isConvertibleImplText toPythonImplText toCppImplText
    copyCppObjectImplText pointerQualifier createWrapperArgument baseWrapperCall
    enumObjectCall
  generalize (g.implicitConversions t).isEmpty = b
  generalize (match g.findClass t.name with
       | some c => (g.classAt c).isAbstract
       | none => false) = a
  rcases category_flags t with ⟨hE, hF, hV, hO⟩ | ⟨hE, hF, hV, hO⟩ | ⟨hE, hF, hV, hO⟩ |
      ⟨hE, hF, hV, hO⟩ | ⟨hE, hF, hV, hO⟩ <;> cases b <;>
    simp only [hE, hF, hV, hO, Bool.false_eq_true, if_false, if_true, Bool.not_true,
      Bool.not_false, Bool.or_false, Bool.or_true, Bool.and_false, Bool.and_true,
      Bool.or_self, Bool.and_self, String.append_assoc, String.append_empty]

/-- The declaration lists exactly the members of the required member set. -/
theorem writeTypeConverterDecl_spec (g : Generator) (n : Nat) (s : String) (t : TypeEntry) :
    writeTypeConverterDecl g n s t =
      s ++ converterDeclHead g t
        ++ memberDeclarations g n t (specRequiredMembers t (g.implicitConversions t))
        ++ "\x7d;" ++ "\n" := by
  rw [writeTypeConverterDecl_eq]
  simp only [memberDeclarations, specRequiredMembers, if_true, String.append_assoc]

theorem isEmpty_eq_false_of_ne_nil {α : Type} (l : List α) (h : l ≠ []) :
    l.isEmpty = false := by
  cases l with
  | nil => exact absurd rfl h
  | cons a l => rfl

theorem replaceScopeAux_head (d : Char) (rest : List Char) (hd : d ≠ ':') :
    ∃ tl, QString.replaceScopeAux (d :: rest) = d :: tl := by
  cases rest with
  | nil => exact ⟨[], rfl⟩
  | cons e r =>
    simp only [QString.replaceScopeAux]
    rw [if_neg (fun h => hd h.1)]
    exact ⟨_, rfl⟩

theorem isPrefixOf_scope_cons (c : Char) (l : List Char) :
    ([':', ':'] : List Char).isPrefixOf (c :: l) = true ↔ c = ':' ∧ ∃ tl, l = ':' :: tl := by
  cases l with
  | nil => simp [List.isPrefixOf]
  | cons e r => simp [List.isPrefixOf]; tauto

theorem count_scope_replaceScopeAux (l sfx : List Char)
    (hs : ∀ tl, sfx ≠ ':' :: tl) :
    countOccurrencesAux [':', ':'] (QString.replaceScopeAux l ++ sfx) =
      countOccurrencesAux [':', ':'] sfx := by
  induction l using QString.replaceScopeAux.induct with
  | case1 => rfl
  | case2 c =>
    simp only [QString.replaceScopeAux, List.singleton_append, countOccurrencesAux]
    have : ([':', ':'] : List Char).isPrefixOf (c :: sfx) = false := by
      rw [Bool.eq_false_iff]
      intro h
      obtain ⟨-, tl, htl⟩ := (isPrefixOf_scope_cons c sfx).mp h
      exact hs tl htl
    simp [this]
  | case3 c d rest h ih =>
    simp only [QString.replaceScopeAux, if_pos h, List.cons_append, countOccurrencesAux]
    have : ([':', ':'] : List Char).isPrefixOf ('_' :: (QString.replaceScopeAux rest ++ sfx))
        = false := by
      rw [Bool.eq_false_iff]
      intro h2
      have := ((isPrefixOf_scope_cons _ _).mp h2).1
      exact absurd this (by decide)
    simp [this, ih]
  | case4 c d rest h ih =>
    simp only [QString.replaceScopeAux, if_neg h, List.cons_append, countOccurrencesAux]
    have : ([':', ':'] : List Char).isPrefixOf
        (c :: (QString.replaceScopeAux (d :: rest) ++ sfx)) = false := by
      rw [Bool.eq_false_iff]
      intro h2
      obtain ⟨hc, tl, htl⟩ := (isPrefixOf_scope_cons _ _).mp h2
      have hd : d ≠ ':' := fun hd => h ⟨hc, hd⟩
      obtain ⟨tl2, h3⟩ := replaceScopeAux_head d rest hd
      rw [h3] at htl
      simp only [List.cons_append, List.cons.injEq] at htl
      exact hd htl.1
    simp [this, ih]

theorem mem_replaceScopeAux (l : List Char) (x : Char)
    (hx : x ∈ QString.replaceScopeAux l) : x = '_' ∨ x ∈ l := by
  induction l using QString.replaceScopeAux.induct with
  | case1 => simp [QString.replaceScopeAux] at hx
  | case2 c => exact Or.inr (by simpa [QString.replaceScopeAux] using hx)
  | case3 c d rest h ih =>
    simp only [QString.replaceScopeAux, if_pos h, List.mem_cons] at hx
    rcases hx with hx | hx
    · exact Or.inl hx
    · rcases ih hx with h1 | h1
      · exact Or.inl h1
      · exact Or.inr (by simp [h1])
  | case4 c d rest h ih =>
    simp only [QString.replaceScopeAux, if_neg h, List.mem_cons] at hx
    rcases hx with hx | hx
    · exact Or.inr (by simp [hx])
    · rcases ih hx with h1 | h1
      · exact Or.inl h1
      · exact Or.inr (List.mem_cons_of_mem _ h1)

theorem replaceScopeAux_of_count_zero (l : List Char)
    (h : countOccurrencesAux [':', ':'] l = 0) : QString.replaceScopeAux l = l := by
  induction l using QString.replaceScopeAux.induct with
  | case1 => rfl
  | case2 c => rfl
  | case3 c d rest hcd ih =>
    exfalso
    simp only [countOccurrencesAux] at h
    have : ([':', ':'] : List Char).isPrefixOf (c :: d :: rest) = true := by
      rw [isPrefixOf_scope_cons]
      exact ⟨hcd.1, rest, by rw [hcd.2]⟩
    rw [this] at h
    simp at h
  | case4 c d rest hcd ih =>
    simp only [QString.replaceScopeAux, if_neg hcd]
    simp only [countOccurrencesAux] at h ih
    rw [ih (by omega)]

theorem isUpper_toLower (c : Char) : c.toLower.isUpper = false := by
  unfold Char.toLower
  by_cases h : c.toNat ≥ 65 ∧ c.toNat ≤ 90
  · simp only [h, and_self, if_true]
    obtain ⟨h1, h2⟩ := h
    generalize c.toNat = n at h1 h2
    interval_cases n <;> rfl
  · simp only [h, if_false]
    unfold Char.isUpper
    simp only [Char.toNat, ge_iff_le] at h
    rw [Bool.eq_false_iff]
    intro h3
    simp only [Bool.and_eq_true, decide_eq_true_eq, ge_iff_le] at h3
    apply h
    obtain ⟨h4, h5⟩ := h3
    constructor
    · exact h4
    · exact h5

theorem writeTypeConverterImpl_spec (g : Generator) (n : Nat) (s : String) (t : TypeEntry)
    (h : t.hasConversionRule = false) :
    writeTypeConverterImpl g n s t =
      s ++ memberImplementations g n t (specRequiredMembers t (g.implicitConversions t)) := by
  rw [writeTypeConverterImpl_eq g n s t h]
  unfold memberImplementations specRequiredMembers valueMembersImplText
  cases h1 : (!(g.implicitConversions t).isEmpty) <;> cases h2 : t.isValue <;>
    simp only [if_true, if_false, Bool.false_eq_true, Bool.and_true, Bool.and_false,
      Bool.false_and, Bool.true_and, String.append_assoc, String.append_empty,
      String.empty_append]

theorem map_filter_eq_map_iff {α β : Type} (f : α → β) (p : α → Bool) (l : List α) :
    (l.filter p).map f = l.map f ↔ ∀ a ∈ l, p a = true := by
  constructor
  · intro h
    have hlen : (l.filter p).length = l.length := by
      have := congrArg List.length h
      simpa using this
    have : l.filter p = l := by
      apply List.Sublist.eq_of_length (List.filter_sublist l) hlen
    exact List.filter_eq_self.mp this
  · intro h
    rw [List.filter_eq_self.mpr h]

theorem concatAll_append (a b : List String) :
    concatAll (a ++ b) = concatAll a ++ concatAll b := by
  induction a with
  | nil => simp [concatAll]
  | cons x a ih =>
    rw [List.cons_append]
    show x ++ concatAll (a ++ b) = _
    rw [ih, concatAll, String.append_assoc]

theorem concatAll_flatten_map {α : Type} (f : α → List String) (l : List α) :
    concatAll (l.map f).flatten = concatAll (l.map (fun x => concatAll (f x))) := by
  induction l with
  | nil => rfl
  | cons x l ih => simp only [List.map_cons, List.flatten_cons, concatAll_append, concatAll, ih]

theorem concatAll_map_filter {α : Type} (p : α → Bool) (f : α → String) (l : List α) :
    concatAll (l.map (fun x => if p x then f x else "")) = concatAll ((l.filter p).map f) := by
  induction l with
  | nil => rfl
  | cons x l ih =>
    cases hp : p x <;>
      simp [List.filter, hp, concatAll, ih]

theorem foldl_append_only {α : Type} (w : String → α → String)
    (hw : ∀ s a, w s a = s ++ w "" a) (l : List α) (s : String) :
    l.foldl w s = s ++ concatAll (l.map (w "")) := by
  induction l generalizing s with
  | nil => simp [concatAll]
  | cons a l ih =>
    rw [List.foldl_cons, ih, hw s a]
    simp only [List.map_cons, concatAll, String.append_assoc]

theorem foldl_keep {α β : Type} (l : List α) (b : β) : l.foldl (fun y _ => y) b = b := by
  induction l with
  | nil => rfl
  | cons a l ih => simp

theorem foldl_appendStep {α : Type} (fp : String → α → String)
    (fe : List String → α → List String) (dc dp dd di : α → String) (l : List α)
    (st : FinishState) :
    l.foldl (appendStep fp fe dc dp dd di) st =
      { m_packageName := l.foldl fp st.m_packageName
        classIncludes := st.classIncludes ++ concatAll (l.map dc)
        enumIncludes := l.foldl fe st.enumIncludes
        pythonTypeStuff := st.pythonTypeStuff ++ concatAll (l.map dp)
        convertersDecl := st.convertersDecl ++ concatAll (l.map dd)
        convertersImpl := st.convertersImpl ++ concatAll (l.map di) } := by
  induction l generalizing st with
  | nil => simp [concatAll]
  | cons a l ih =>
    rw [List.foldl_cons, ih]
    simp only [appendStep, List.foldl_cons, List.map_cons, concatAll, String.append_assoc]

theorem writeTypeCheckMacro_append (g : Generator) (s : String) (t : TypeEntry) :
    writeTypeCheckMacro g s t = s ++ writeTypeCheckMacro g "" t := by
  unfold writeTypeCheckMacro
  simp only [String.append_assoc, String.empty_append]

theorem writeTypeConverterDecl_append (g : Generator) (n : Nat) (s : String) (t : TypeEntry) :
    writeTypeConverterDecl g n s t = s ++ writeTypeConverterDecl g n "" t := by
  rw [writeTypeConverterDecl_spec g n s t, writeTypeConverterDecl_spec g n "" t]
  simp only [String.append_assoc, String.empty_append]

theorem writeTypeConverterImpl_append (g : Generator) (n : Nat) (s : String) (t : TypeEntry) :
    writeTypeConverterImpl g n s t = s ++ writeTypeConverterImpl g n "" t := by
  cases h : t.hasConversionRule with
  | true =>
    unfold writeTypeConverterImpl
    simp [h]
  | false =>
    rw [writeTypeConverterImpl_spec g n s t h, writeTypeConverterImpl_spec g n "" t h]
    simp only [String.empty_append]

theorem writeFunction_append (g : Generator) (n : Nat) (s : String) (f : AbstractMetaFunction) :
    writeFunction g n s f = s ++ writeFunction g n "" f := by
  by_cases hs : f.isPrivate = true ∨ (f.isModifiedRemoved = true ∧ f.isAbstract = false) ∨
      f.isCopyConstructor = true
  · rw [writeFunction_of_skip g n s f hs, writeFunction_of_skip g n "" f hs]
    simp
  · have hp : f.isPrivate = false := by
      cases h : f.isPrivate
      · rfl
      · exact absurd (Or.inl h) hs
    have hc : f.isCopyConstructor = false := by
      cases h : f.isCopyConstructor
      · rfl
      · exact absurd (Or.inr (Or.inr h)) hs
    have hr : ¬ (f.isModifiedRemoved = true ∧ f.isAbstract = false) :=
      fun h => hs (Or.inr (Or.inl h))
    rw [writeFunction_eq g n s f hp hr hc, writeFunction_eq g n "" f hp hr hc]
    split
    · split
      · rw [writeVirtualDispatcher_eq, writeVirtualDispatcher_eq]
        simp only [String.append_assoc, String.empty_append]
      · simp only [String.empty_append]
    · simp

theorem globalEnumStep_eq (h : HeaderGen) (n : Nat) :
    globalEnumStep h n =
      appendStep (fun p _ => p) (enumIncludeStep h) (fun _ => "") (enumTypeStuff h)
        (fun e => concatAll ([e.typeEntry.entry].map (writeTypeConverterDecl h.toGenerator n ""))
          ++ "\n")
        (fun e => writeTypeConverterImpl h.toGenerator n "" e.typeEntry.entry) := by
  funext st e
  unfold globalEnumStep appendStep enumIncludeStep enumTypeStuff
  simp only [FinishState.mk.injEq, String.append_empty, List.map_cons, List.map_nil, concatAll,
    true_and]
  refine ⟨?_, ?_, ?_⟩
  · rw [writeTypeCheckMacro_append, String.append_assoc]
  · rw [writeTypeConverterDecl_append, String.append_assoc]
  · rw [writeTypeConverterImpl_append]

theorem classEnumStep_eq (h : HeaderGen) (n : Nat) :
    classEnumStep h n =
      appendStep (fun p _ => p) (fun set _ => set) (fun _ => "") (enumTypeStuff h)
        (fun e => concatAll ((enumConvertedEntries e).map
          (writeTypeConverterDecl h.toGenerator n "")) ++ "\n")
        (fun e => concatAll ((enumConvertedEntries e).map
          (writeTypeConverterImpl h.toGenerator n ""))) := by
  funext st e
  unfold classEnumStep appendStep enumTypeStuff enumConvertedEntries
  simp only [FinishState.mk.injEq, String.append_empty, true_and]
  refine ⟨?_, ?_, ?_⟩
  · rw [writeTypeCheckMacro_append, String.append_assoc]
  · cases e.typeEntry.flags with
    | none =>
      simp only [List.map_cons, List.map_nil, concatAll, String.append_empty]
      rw [writeTypeConverterDecl_append, String.append_assoc]
    | some f =>
      simp only [List.map_cons, List.map_nil, concatAll, String.append_empty]
      rw [writeTypeConverterDecl_append h.toGenerator n (writeTypeConverterDecl _ _ _ _),
        writeTypeConverterDecl_append h.toGenerator n st.convertersDecl]
      simp only [String.append_assoc]
  · cases e.typeEntry.flags with
    | none =>
      simp only [List.map_cons, List.map_nil, concatAll, String.append_empty]
      rw [writeTypeConverterImpl_append]
    | some f =>
      simp only [List.map_cons, List.map_nil, concatAll, String.append_empty]
      rw [writeTypeConverterImpl_append h.toGenerator n (writeTypeConverterImpl _ _ _ _),
        writeTypeConverterImpl_append h.toGenerator n st.convertersImpl]
      simp only [String.append_assoc]

theorem innerClassStep_eq (h : HeaderGen) (n : Nat) :
    innerClassStep h n =
      appendStep (fun p _ => p) (fun set _ => set)
        (fun q => if h.shouldGenerate q then
          (h.classAt q).typeEntry.includeDirective.toString ++ "\n" else "")
        (fun q => if h.shouldGenerate q then classTypeStuff h q else "")
        (fun q => if h.shouldGenerate q then
          concatAll ([(h.classAt q).typeEntry].map (writeTypeConverterDecl h.toGenerator n ""))
            ++ "\n" else "")
        (fun q => if h.shouldGenerate q then
          concatAll ([(h.classAt q).typeEntry].map (writeTypeConverterImpl h.toGenerator n ""))
          else "") := by
  funext st q
  unfold innerClassStep appendStep classTypeStuff
  cases hg : h.shouldGenerate q
  · simp [hg]
  · simp only [hg, if_true, FinishState.mk.injEq, List.map_cons, List.map_nil, concatAll,
      String.append_empty, true_and]
    refine ⟨?_, ?_, ?_, ?_⟩
    · simp only [String.append_assoc]
    · rw [writeTypeCheckMacro_append]
      simp only [String.append_assoc]
    · rw [writeTypeConverterDecl_append, String.append_assoc]
    · rw [writeTypeConverterImpl_append]

theorem entryImplementations_flatten (g : Generator) (n : Nat) (groups : List (List TypeEntry)) :
    entryImplementations g n groups.flatten =
      concatAll (groups.map (fun grp => concatAll (grp.map (writeTypeConverterImpl g n "")))) := by
  unfold entryImplementations
  induction groups with
  | nil => rfl
  | cons grp groups ih =>
    simp only [List.flatten_cons, List.map_append, concatAll_append, List.map_cons, concatAll, ih]

theorem concatAll_map_empty {α : Type} (l : List α) :
    concatAll (l.map (fun _ => "")) = "" := by
  induction l with
  | nil => rfl
  | cons a l ih => simp only [List.map_cons, concatAll, ih, String.append_empty]

theorem skip_eq_not_isEligible (h : HeaderGen) (p : ClassPtr) :
    (!h.shouldGenerate p || (h.classAt p).enclosingClass.isSome ||
      !((h.classAt p).typeEntry.isObject || (h.classAt p).typeEntry.isValue ||
        (h.classAt p).typeEntry.isNamespace)) = !isEligible h p := by
  unfold isEligible
  cases h.shouldGenerate p <;> cases (h.classAt p).enclosingClass <;>
    cases ((h.classAt p).typeEntry.isObject || (h.classAt p).typeEntry.isValue ||
        (h.classAt p).typeEntry.isNamespace) <;> rfl

theorem classStep_eq (h : HeaderGen) (n : Nat) :
    classStep h n =
      appendStep (packageStep h) (fun set _ => set) (classIncludesOf h) (classTypeStuffOf h)
        (fun p => groupDeclarations h.toGenerator n (classConverterGroups h p))
        (fun p => entryImplementations h.toGenerator n (classConverterGroups h p).flatten) := by
  funext st p
  unfold classStep
  simp only [skip_eq_not_isEligible]
  cases he : isEligible h p
  · simp [appendStep, packageStep, classIncludesOf, classTypeStuffOf, classConverterGroups,
      groupDeclarations, entryImplementations, he, concatAll]
  · simp only [Bool.not_true, Bool.false_eq_true, if_false, classEnumStep_eq, innerClassStep_eq,
      foldl_appendStep, foldl_keep, entryImplementations_flatten]
    unfold appendStep packageStep classIncludesOf classTypeStuffOf classConverterGroups
      groupDeclarations
    simp only [he, if_true]
    have hown : ∀ X, classTypeStuff h p ++ X =
        "PyAPI_FUNC(PyObject*) " ++ (h.cpythonBaseName (h.classAt p).typeEntry
          ++ ("_New(PyTypeObject* type, PyObject* args, PyObject* kwds);" ++ ("\n"
          ++ (writeTypeCheckMacro h.toGenerator "" (h.classAt p).typeEntry ++ X)))) := by
      intro X
      simp only [classTypeStuff, String.append_assoc]
    by_cases hpk : st.m_packageName = "" <;>
      cases hv : (h.classAt p).typeEntry.includeDirective.isValid <;>
      cases hn : (h.classAt p).isNamespace <;>
      simp only [hpk, hv, hn, if_true, if_false, Bool.not_true, Bool.not_false,
        Bool.false_eq_true, FinishState.mk.injEq, true_and, and_true, List.map_append,
        List.map_map, List.map_cons, List.map_nil, concatAll_append, concatAll,
        String.append_empty, String.empty_append, String.append_assoc, List.append_nil,
        concatAll_map_filter, concatAll_map_empty, generatedInnerClasses, Function.comp_def,
        cptrMacro, hown,
        writeTypeCheckMacro_append h.toGenerator (_ ++ _), writeTypeConverterDecl_append
          h.toGenerator n (_ ++ _), writeTypeConverterImpl_append h.toGenerator n (_ ++ _)]

theorem concatAll_map_flatten {α β : Type} (f : β → String) (g : α → List β) (l : List α) :
    concatAll (((l.map g).flatten).map f) =
      concatAll (l.map (fun x => concatAll ((g x).map f))) := by
  induction l with
  | nil => rfl
  | cons x l ih =>
    simp only [List.map_cons, List.flatten_cons, List.map_append, concatAll_append, concatAll,
      ih]

theorem collectStreams_eq (h : HeaderGen) (n : Nat) (p0 : String) :
    collectStreams h n p0 =
      { m_packageName := h.classes.foldl (packageStep h) p0
        classIncludes := concatAll (h.classes.map (classIncludesOf h))
        enumIncludes := h.globalEnums.foldl (enumIncludeStep h) []
        pythonTypeStuff := "\n" ++ "// Global enums" ++ "\n"
          ++ concatAll (h.globalEnums.map (enumTypeStuff h))
          ++ concatAll (h.classes.map (classTypeStuffOf h))
        convertersDecl := groupDeclarations h.toGenerator (n + 1) (converterGroups h)
        convertersImpl := entryImplementations h.toGenerator (n + 1) (converterGroups h).flatten } := by
  unfold collectStreams
  simp only [globalEnumStep_eq, classStep_eq, foldl_appendStep, foldl_keep,
    entryImplementations_flatten, FinishState.mk.injEq, true_and, String.empty_append,
    concatAll_map_empty, String.append_empty, String.append_assoc]
  refine ⟨?_, ?_⟩
  · unfold groupDeclarations converterGroups
    simp only [List.map_append, List.map_map, concatAll_append, Function.comp_def,
      concatAll_map_flatten]
  · unfold converterGroups
    simp only [List.map_append, List.map_map, concatAll_append, Function.comp_def,
      concatAll_map_flatten, List.map_cons, List.map_nil, concatAll, String.append_empty]

theorem foldl_packageStep_of_ne (h : HeaderGen) (l : List ClassPtr) (name : String)
    (hne : name ≠ "") : l.foldl (packageStep h) name = name := by
  induction l with
  | nil => rfl
  | cons p l ih =>
    rw [List.foldl_cons]
    have : packageStep h name p = name := by
      simp [packageStep, hne]
    rw [this, ih]

theorem foldl_packageStep_idem (h : HeaderGen) (l : List ClassPtr) (name : String) :
    l.foldl (packageStep h) (l.foldl (packageStep h) name) = l.foldl (packageStep h) name := by
  by_cases h1 : l.foldl (packageStep h) name = ""
  · by_cases h2 : name = ""
    · rw [h1]
      rw [h2] at h1
      exact h1
    · rw [foldl_packageStep_of_ne h l name h2] at h1
      exact absurd h1 h2
  · exact foldl_packageStep_of_ne h l _ h1

theorem foldl_packageStep_eq (h : HeaderGen) (l : List ClassPtr) (name : String) :
    l.foldl (packageStep h) name =
      if name = "" then
        ((((l.filter (isEligible h)).map (fun p => (h.classAt p).package)).find?
          (fun x => x != "")).getD "")
      else name := by
  by_cases hn : name = ""
  · rw [if_pos hn, hn]
    induction l with
    | nil => rfl
    | cons p l ih =>
      rw [List.foldl_cons]
      cases he : isEligible h p
      · have : packageStep h "" p = "" := by simp [packageStep, he]
        rw [this, ih]
        simp [List.filter, he]
      · by_cases hp : (h.classAt p).package = ""
        · have : packageStep h "" p = "" := by simp [packageStep, he, hp]
          rw [this, ih]
          simp [List.filter, he, hp]
        · have : packageStep h "" p = (h.classAt p).package := by simp [packageStep, he]
          rw [this, foldl_packageStep_of_ne h l _ hp]
          simp [List.filter, he, hp]
  · rw [if_neg hn, foldl_packageStep_of_ne h l name hn]

theorem qsetInsert_nodup (set : List String) (x : String) (hs : set.Nodup) :
    (qsetInsert set x).Nodup := by
  unfold qsetInsert
  split
  · exact hs
  · rename_i hx
    rw [List.nodup_append]
    refine ⟨hs, List.nodup_singleton x, ?_⟩
    intro a ha hb
    simp only [List.mem_singleton] at hb
    subst hb
    exact hx ha

theorem mem_qsetInsert (set : List String) (x y : String) :
    y ∈ qsetInsert set x ↔ y ∈ set ∨ y = x := by
  unfold qsetInsert
  split
  · rename_i hx
    constructor
    · exact Or.inl
    · rintro (h1 | h1)
      · exact h1
      · rw [h1]; exact hx
  · simp

theorem foldl_enumIncludeStep_nodup (h : HeaderGen) (l : List AbstractMetaEnum)
    (set : List String) (hs : set.Nodup) : (l.foldl (enumIncludeStep h) set).Nodup := by
  induction l generalizing set with
  | nil => exact hs
  | cons e l ih =>
    rw [List.foldl_cons]
    apply ih
    unfold enumIncludeStep
    split
    · exact qsetInsert_nodup _ _ hs
    · exact hs

theorem mem_foldl_enumIncludeStep (h : HeaderGen) (l : List AbstractMetaEnum)
    (set : List String) (x : String) :
    x ∈ l.foldl (enumIncludeStep h) set ↔
      x ∈ set ∨ ∃ e ∈ l, e.includeFile = x ∧ lastPathComponent h.separator x ≠ "" := by
  induction l generalizing set with
  | nil => simp
  | cons e l ih =>
    rw [List.foldl_cons, ih]
    unfold enumIncludeStep
    by_cases hc : lastPathComponent h.separator e.includeFile ≠ ""
    · rw [if_pos hc, mem_qsetInsert]
      constructor
      · rintro ((h1 | h1) | ⟨e2, he2, h3⟩)
        · exact Or.inl h1
        · exact Or.inr ⟨e, List.mem_cons_self _ _, h1.symm, h1 ▸ hc⟩
        · exact Or.inr ⟨e2, List.mem_cons_of_mem _ he2, h3⟩
      · rintro (h1 | ⟨e2, he2, h3, h4⟩)
        · exact Or.inl (Or.inl h1)
        · rcases List.mem_cons.mp he2 with h5 | h5
          · subst h5
            exact Or.inl (Or.inr h3.symm)
          · exact Or.inr ⟨e2, h5, h3, h4⟩
    · rw [if_neg hc]
      constructor
      · rintro (h1 | ⟨e2, he2, h3⟩)
        · exact Or.inl h1
        · exact Or.inr ⟨e2, List.mem_cons_of_mem _ he2, h3⟩
      · rintro (h1 | ⟨e2, he2, h3, h4⟩)
        · exact Or.inl h1
        · rcases List.mem_cons.mp he2 with h5 | h5
          · subst h5
            rw [h3] at hc
            exact absurd h4 hc
          · exact Or.inr ⟨e2, h5, h3, h4⟩

theorem enumIncludeLine_injective : Function.Injective enumIncludeLine := by
  intro a b hab
  unfold enumIncludeLine enumIncludeWriteStep at hab
  have := congrArg String.data hab
  simp only [String.data_append, List.append_assoc] at this
  have h2 := List.append_cancel_left (List.append_cancel_left this)
  have h3 := List.append_cancel_right h2
  exact String.ext h3

theorem writeModuleHeader_eq (h : HeaderGen) (st : FinishState) (shield : String) :
    writeModuleHeader h st shield =
      headerProlog h shield
        ++ ("// Class Includes" ++ "\n" ++ st.classIncludes ++ "\n"
          ++ (if st.enumIncludes.isEmpty then ""
              else "// Enum Includes" ++ "\n"
                ++ concatAll (st.enumIncludes.map enumIncludeLine) ++ "\n"))
        ++ headerEpilog h st shield := by
  unfold writeModuleHeader headerProlog headerEpilog conversionIncludes userConverters
  have e1 : ∀ s a, enumIncludeWriteStep s a = s ++ enumIncludeWriteStep "" a := by
    intro s a
    simp only [enumIncludeWriteStep, String.append_assoc, String.empty_append]
  have e2 : ∀ s a, typeIncludeWriteStep s a = s ++ typeIncludeWriteStep "" a := by
    intro s a
    unfold typeIncludeWriteStep
    split <;> simp only [String.append_assoc, String.empty_append, String.append_empty]
  have e3 : ∀ s a, conversionRuleWriteStep s a = s ++ conversionRuleWriteStep "" a := by
    intro s a
    unfold conversionRuleWriteStep
    split <;> simp only [String.append_assoc, String.empty_append, String.append_empty]
  simp only [foldl_append_only _ e1, foldl_append_only _ e2, foldl_append_only _ e3]
  have e4 : enumIncludeLine = enumIncludeWriteStep "" := rfl
  rw [e4]
  cases st.enumIncludes.isEmpty <;> cases h.primitiveTypes.isEmpty <;>
    cases h.containerTypes.isEmpty <;>
    simp only [Bool.not_true, Bool.not_false, Bool.false_eq_true, if_false, if_true,
      String.append_assoc, String.empty_append, String.append_empty]

theorem writeCopyCtor_append (h : HeaderGen) (n : Nat) (s : String) (p : ClassPtr) :
    writeCopyCtor h n s p = s ++ writeCopyCtor h n "" p := by
  unfold writeCopyCtor
  simp only [String.append_assoc, String.empty_append]

theorem finishGeneration_packageName (h : HeaderGen) (n : Nat) (p0 : String) :
    (finishGeneration h n p0).m_packageName = h.classes.foldl (packageStep h) p0 := by
  unfold finishGeneration
  simp only [collectStreams_eq]
  split <;> rfl

theorem mem_enumConvertedEntries (e : AbstractMetaEnum) (t : TypeEntry)
    (ht : t ∈ enumConvertedEntries e) : hasConverterCategory t = true := by
  unfold enumConvertedEntries at ht
  rcases List.mem_cons.mp ht with h1 | h1
  · subst h1
    simp [hasConverterCategory, TypeEntry.isEnum, e.typeEntry.isEnumEntry]
  · cases hf : e.typeEntry.flags with
    | none => rw [hf] at h1; simp at h1
    | some f =>
      rw [hf] at h1
      simp only [List.mem_singleton] at h1
      subst h1
      simp [hasConverterCategory, TypeEntry.isFlags, f.isFlagsEntry]

theorem countOccurrencesAux_cons (pat : List Char) (c : Char) (cs : List Char) :
    countOccurrencesAux pat (c :: cs) =
      (if pat.isPrefixOf (c :: cs) then 1 else 0) + countOccurrencesAux pat cs := rfl

theorem replaceScopeAux_leftmost (a b : List Char)
    (ha : countOccurrencesAux [':', ':'] (a ++ [':']) = 0) :
    QString.replaceScopeAux (a ++ ':' :: ':' :: b) = a ++ '_' :: QString.replaceScopeAux b := by
  induction a with
  | nil => simp [QString.replaceScopeAux]
  | cons c a ih =>
    have hstep : ([':', ':'] : List Char).isPrefixOf (c :: (a ++ [':'])) = false ∧
        countOccurrencesAux [':', ':'] (a ++ [':']) = 0 := by
      rw [List.cons_append, countOccurrencesAux_cons] at ha
      constructor
      · cases hp : ([':', ':'] : List Char).isPrefixOf (c :: (a ++ [':']))
        · rfl
        · rw [hp] at ha
          simp at ha
      · omega
    obtain ⟨hpre, hrest⟩ := hstep
    cases a with
    | nil =>
      have hc : c ≠ ':' := by
        intro hc
        rw [hc] at hpre
        exact absurd hpre (by decide)
      simp only [List.nil_append, List.cons_append, QString.replaceScopeAux]
      rw [if_neg (fun h => hc h.1)]
      simp [QString.replaceScopeAux]
    | cons d a =>
      have hcd : ¬ (c = ':' ∧ d = ':') := by
        rintro ⟨hc, hd⟩
        rw [hc, hd] at hpre
        simp [List.isPrefixOf] at hpre
      have e : QString.replaceScopeAux (c :: d :: (a ++ ':' :: ':' :: b)) =
          c :: QString.replaceScopeAux (d :: (a ++ ':' :: ':' :: b)) := by
        simp only [QString.replaceScopeAux]
        rw [if_neg hcd]
      have := ih hrest
      simp only [List.cons_append] at this ⊢
      rw [e, this]

theorem count_scope_of_not_mem (a sfx : List Char) (ha : ':' ∉ a)
    (hs : countOccurrencesAux [':', ':'] sfx = 0) :
    countOccurrencesAux [':', ':'] (a ++ sfx) = 0 := by
  induction a with
  | nil => simpa using hs
  | cons c a ih =>
    have hc : c ≠ ':' := fun h => ha (by simp [h])
    have ha2 : ':' ∉ a := fun h => ha (List.mem_cons_of_mem _ h)
    have : ([':', ':'] : List Char).isPrefixOf (c :: (a ++ sfx)) = false := by
      rw [Bool.eq_false_iff]
      intro h
      exact hc ((isPrefixOf_scope_cons _ _).mp h).1
    rw [List.cons_append, countOccurrencesAux_cons, this, ih ha2]
    simp

theorem intercalate_cons_cons (sep a b : String) (l : List String) :
    String.intercalate sep (a :: b :: l) = a ++ sep ++ String.intercalate sep (b :: l) := by
  simp only [String.intercalate, String.intercalate.go]
  rw [intercalate_go_append]

theorem replaceScope_intercalate (segs : List String) (h : ∀ s ∈ segs, ':' ∉ s.data) :
    QString.replaceScope (String.intercalate "::" segs) = String.intercalate "_" segs := by
  induction segs with
  | nil => rfl
  | cons a l ih =>
    cases l with
    | nil =>
      simp only [String.intercalate, String.intercalate.go]
      unfold QString.replaceScope
      rw [replaceScopeAux_of_count_zero]
      have := count_scope_of_not_mem a.data [] (h a (by simp)) rfl
      simpa using this
    | cons b l =>
      rw [intercalate_cons_cons, intercalate_cons_cons]
      have ih2 := ih (fun s hs => h s (List.mem_cons_of_mem _ hs))
      rw [← ih2]
      apply String.ext
      unfold QString.replaceScope
      simp only [String.data_append]
      show QString.replaceScopeAux (a.data ++ [':', ':'] ++ _) = a.data ++ ['_'] ++ _
      rw [List.append_assoc, List.append_assoc]
      show QString.replaceScopeAux (a.data ++ ':' :: ':' :: _) = _
      rw [replaceScopeAux_leftmost]
      · rfl
      · exact count_scope_of_not_mem a.data [':'] (h a (by simp)) (by decide)

theorem toLower_ne_colon (c : Char) (hc : c ≠ ':') : c.toLower ≠ ':' := by
  unfold Char.toLower
  by_cases h : c.toNat ≥ 65 ∧ c.toNat ≤ 90
  · simp only [h, and_self, if_true]
    obtain ⟨h1, h2⟩ := h
    generalize c.toNat = n at h1 h2
    interval_cases n <;> decide
  · simp only [h, if_false]
    exact hc

theorem toLower_append (a b : String) :
    QString.toLower (a ++ b) = QString.toLower a ++ QString.toLower b := by
  apply String.ext
  simp [QString.toLower]

theorem toLower_intercalate_scope (segs : List String) :
    QString.toLower (String.intercalate "::" segs) =
      String.intercalate "::" (segs.map QString.toLower) := by
  induction segs with
  | nil => rfl
  | cons a l ih =>
    cases l with
    | nil => simp [String.intercalate, String.intercalate.go]
    | cons b l =>
      rw [List.map_cons, List.map_cons, intercalate_cons_cons, intercalate_cons_cons,
        toLower_append, toLower_append, ih]
      rfl

theorem fileName_segments (g : Generator) (p : ClassPtr) (segs : List String)
    (hn : (g.classAt p).qualifiedCppName = String.intercalate "::" segs)
    (hs : ∀ s ∈ segs, ':' ∉ s.data) :
    fileNameForClass g p =
      String.intercalate "_" (segs.map QString.toLower) ++ "_wrapper.h" := by
  unfold fileNameForClass
  rw [hn, toLower_intercalate_scope, replaceScope_intercalate]
  intro s hs2
  obtain ⟨a, ha, rfl⟩ := List.mem_map.mp hs2
  intro hmem
  unfold QString.toLower at hmem
  obtain ⟨c, hc, hc2⟩ := List.mem_map.mp hmem
  have hcne : c ≠ ':' := fun h => hs a ha (h ▸ hc)
  exact toLower_ne_colon c hcne hc2

theorem replaceScope_leftmost (a b : String)
    (ha : countOccurrences "::" (a ++ ":") = 0) :
    QString.replaceScope (a ++ "::" ++ b) = a ++ "_" ++ QString.replaceScope b := by
  apply String.ext
  unfold QString.replaceScope
  simp only [String.data_append]
  show QString.replaceScopeAux (a.data ++ [':', ':'] ++ b.data) =
    a.data ++ ['_'] ++ QString.replaceScopeAux b.data
  rw [List.append_assoc, List.append_assoc]
  show QString.replaceScopeAux (a.data ++ ':' :: ':' :: b.data) = _
  rw [replaceScopeAux_leftmost]
  · rfl
  · unfold countOccurrences at ha
    rw [String.data_append] at ha
    exact ha

/-! ## `writeFunction`: skipping, declaring, dispatching -/

/-- C1: a function that is private, or modified-removed and not abstract, or a
copy constructor gets no output at all from `writeFunction`, whatever its
other flags and classes: the stream is returned as it was. -/
theorem writeFunction_skipped_writes_nothing (g : Generator) (n : Nat) (s : String)
    (f : AbstractMetaFunction)
    (h : f.isPrivate = true ∨ (f.isModifiedRemoved = true ∧ f.isAbstract = false) ∨
      f.isCopyConstructor = true) :
    writeFunction g n s f = s :=
  writeFunction_of_skip g n s f h

theorem writeFunction_skipped_writes_nothing_witness :
    demoSecret.isPrivate = true ∧ demoSecret.isVirtual = true ∧
      writeFunction (demoGenerator []) 1 "class X" demoSecret = "class X" :=
  ⟨rfl, rfl, writeFunction_skipped_writes_nothing (demoGenerator []) 1 "class X" demoSecret
    (Or.inl rfl)⟩

/-- C2: for a function that is not skipped, the output of `writeFunction` is
the declaration followed by what `writeVirtualDispatcher` writes if and only if
the function is virtual, not abstract, not a constructor, its owner class has
no private destructor and its implementing class is its owner class. -/
theorem writeFunction_dispatcher_iff (g : Generator) (n : Nat) (s : String)
    (f : AbstractMetaFunction)
    (hp : f.isPrivate = false) (hr : ¬ (f.isModifiedRemoved = true ∧ f.isAbstract = false))
    (hc : f.isCopyConstructor = false) :
    writeFunction g n s f = writeVirtualDispatcher g n (s ++ declarationText g n f) f ↔
      (f.isVirtual = true ∧ f.isAbstract = false ∧ f.isConstructor = false ∧
        (g.classAt f.ownerClass).hasPrivateDestructor = false ∧
        f.implementingClass = f.ownerClass) := by
  rw [writeFunction_eq g n s f hp hr hc]
  have hlen : ∀ u : String, (writeVirtualDispatcher g n u f).length > u.length := by
    intro u
    rw [writeVirtualDispatcher_eq, String.length_append]
    have := length_dispatcherText_pos g n f
      (if f.isModifiedRemoved && f.isAbstract then defaultValueBody g f
       else callThroughBody g f)
    omega
  constructor
  · intro e
    by_cases hcond : (f.isVirtual && !f.isAbstract && !f.isConstructor &&
        !(g.classAt f.ownerClass).hasPrivateDestructor &&
        f.implementingClass == f.ownerClass) = true
    · exact (dispatchCondition_iff g f).mp hcond
    · exfalso
      rw [if_neg hcond] at e
      have h1 := hlen (s ++ declarationText g n f)
      have h2 := length_declarationText_pos g n f
      rw [String.length_append] at h1
      split at e
      · have := congrArg String.length e
        rw [String.length_append] at this
        omega
      · have := congrArg String.length e
        omega
  · rintro ⟨hv, ha, hk, hd, hi⟩
    simp [hv, ha, hk, hd, hi]

theorem writeFunction_dispatcher_iff_witness :
    (writeFunction (demoGenerator []) 1 "" demoName =
        writeVirtualDispatcher (demoGenerator []) 1
          ("" ++ declarationText (demoGenerator []) 1 demoName) demoName ↔
      (demoName.isVirtual = true ∧ demoName.isAbstract = false ∧
        demoName.isConstructor = false ∧
        ((demoGenerator []).classAt demoName.ownerClass).hasPrivateDestructor = false ∧
        demoName.implementingClass = demoName.ownerClass)) :=
  writeFunction_dispatcher_iff (demoGenerator []) 1 "" demoName rfl (by decide) rfl

/-- C3: for a function that is not skipped, `writeFunction` writes something
if and only if the function is a constructor, abstract or virtual; what it
writes then starts with the one declaration line, which carries `virtual `
exactly for a virtual or abstract function; the declaration is the whole
output unless the dispatch conditions hold, in which case the dispatcher with
the scope-qualified call follows it. -/
theorem writeFunction_declaration (g : Generator) (n : Nat) (s : String)
    (f : AbstractMetaFunction)
    (hp : f.isPrivate = false) (hr : ¬ (f.isModifiedRemoved = true ∧ f.isAbstract = false))
    (hc : f.isCopyConstructor = false) :
    (writeFunction g n s f ≠ s ↔
      (f.isConstructor = true ∨ f.isAbstract = true ∨ f.isVirtual = true)) ∧
    ((f.isConstructor = true ∨ f.isAbstract = true ∨ f.isVirtual = true) →
      ∃ tail, writeFunction g n s f = s ++ declarationText g n f ++ tail ∧
        (tail = "" ∨ tail = dispatcherText g n f (callThroughBody g f))) ∧
    declarationText g n f =
      g.indent n ++ (if f.isVirtual = true ∨ f.isAbstract = true then "virtual " else "")
        ++ g.functionSignature f ++ ";\n" ∧
    ((f.isConstructor = true ∨ f.isAbstract = true ∨ f.isVirtual = true) →
      ¬ (f.isVirtual = true ∧ f.isAbstract = false ∧ f.isConstructor = false ∧
        (g.classAt f.ownerClass).hasPrivateDestructor = false ∧
        f.implementingClass = f.ownerClass) →
      writeFunction g n s f = s ++ declarationText g n f) := by
  have hcondiff := dispatchCondition_iff g f
  have hany : (f.isConstructor || f.isAbstract || f.isVirtual) = true ↔
      (f.isConstructor = true ∨ f.isAbstract = true ∨ f.isVirtual = true) := by
    simp [Bool.or_eq_true, or_assoc]
  have hdecl := length_declarationText_pos g n f
  have htail : (f.isConstructor = true ∨ f.isAbstract = true ∨ f.isVirtual = true) →
      ∃ tail, writeFunction g n s f = s ++ declarationText g n f ++ tail ∧
        (tail = "" ∨ tail = dispatcherText g n f (callThroughBody g f)) := by
    intro h3
    rw [writeFunction_eq g n s f hp hr hc, if_pos (hany.mpr h3)]
    by_cases hcond : (f.isVirtual && !f.isAbstract && !f.isConstructor &&
        !(g.classAt f.ownerClass).hasPrivateDestructor &&
        f.implementingClass == f.ownerClass) = true
    · rw [if_pos hcond, writeVirtualDispatcher_eq]
      have ha : f.isAbstract = false := (hcondiff.mp hcond).2.1
      refine ⟨_, rfl, Or.inr ?_⟩
      simp [ha]
    · rw [if_neg hcond]
      exact ⟨"", by simp, Or.inl rfl⟩
  refine ⟨?_, htail, ?_, ?_⟩
  · constructor
    · intro hne
      by_contra h3
      apply hne
      rw [writeFunction_eq g n s f hp hr hc, if_neg (fun h => h3 (hany.mp h))]
    · intro h3 e
      obtain ⟨tail, ht, -⟩ := htail h3
      rw [ht] at e
      have := congrArg String.length e
      simp only [String.length_append] at this
      omega
  · unfold declarationText
    by_cases hv : (f.isVirtual || f.isAbstract) = true
    · have hv2 : f.isVirtual = true ∨ f.isAbstract = true := by
        simpa [Bool.or_eq_true] using hv
      rw [if_pos hv, if_pos hv2]
    · have hv2 : ¬ (f.isVirtual = true ∨ f.isAbstract = true) := by
        simpa [Bool.or_eq_true] using hv
      rw [if_neg hv, if_neg hv2]
  · intro h3 hn
    rw [writeFunction_eq g n s f hp hr hc, if_pos (hany.mpr h3),
      if_neg (fun h => hn (hcondiff.mp h))]

theorem writeFunction_declaration_witness :
    demoArea.isPrivate = false ∧ demoArea.isCopyConstructor = false ∧
      demoArea.isAbstract = true ∧
      writeFunction (demoGenerator []) 1 "" demoArea =
        "" ++ declarationText (demoGenerator []) 1 demoArea :=
  ⟨rfl, rfl, rfl,
    (writeFunction_declaration (demoGenerator []) 1 "" demoArea rfl (by decide) rfl).2.2.2
      (Or.inr (Or.inl rfl)) (by decide)⟩

/-- C4, as stated, fails: `Shape::secret()` is virtual, not abstract, not a
constructor, implemented in its owner class, which has no private destructor,
yet it is private and `writeFunction` writes nothing for it. -/
theorem writeFunction_private_virtual_no_dispatcher :
    demoSecret.isVirtual = true ∧ demoSecret.isAbstract = false ∧
      demoSecret.isConstructor = false ∧
      demoSecret.implementingClass = demoSecret.ownerClass ∧
      ((demoGenerator []).classAt demoSecret.ownerClass).hasPrivateDestructor = false ∧
      writeFunction (demoGenerator []) 1 "" demoSecret = "" := by
  decide

/-- C4, amended: a virtual, non-abstract, non-constructor function implemented
in its owner class, on a class without private destructor, that is moreover
not private, not modified-removed and not a copy constructor, gets its
`virtual` declaration followed by a dispatcher whose body is the
scope-qualified call `self.<implementing class>::<call>`. -/
theorem writeFunction_dispatcher_call_through (g : Generator) (n : Nat) (s : String)
    (f : AbstractMetaFunction)
    (hv : f.isVirtual = true) (ha : f.isAbstract = false) (hk : f.isConstructor = false)
    (hd : (g.classAt f.ownerClass).hasPrivateDestructor = false)
    (hi : f.implementingClass = f.ownerClass)
    (hp : f.isPrivate = false) (hr : f.isModifiedRemoved = false)
    (hc : f.isCopyConstructor = false) :
    writeFunction g n s f =
      s ++ (g.indent n ++ "virtual " ++ g.functionSignature f ++ ";\n")
        ++ dispatcherText g n f
          ("self." ++ (g.classAt f.implementingClass).qualifiedCppName ++ "::"
            ++ g.writeFunctionCall f) := by
  rw [writeFunction_eq g n s f hp (by simp [hr]) hc, writeVirtualDispatcher_eq]
  simp [hv, ha, hk, hd, hi, hr, declarationText, callThroughBody]

theorem writeFunction_dispatcher_call_through_witness :
    writeFunction (demoGenerator []) 1 "" demoName =
      "" ++ ((demoGenerator []).indent 1 ++ "virtual "
          ++ (demoGenerator []).functionSignature demoName ++ ";\n")
        ++ dispatcherText (demoGenerator []) 1 demoName
          ("self." ++ ((demoGenerator []).classAt demoName.implementingClass).qualifiedCppName
            ++ "::" ++ (demoGenerator []).writeFunctionCall demoName) :=
  writeFunction_dispatcher_call_through (demoGenerator []) 1 "" demoName rfl rfl rfl rfl rfl
    rfl rfl rfl

/-- C5, as stated, fails: the pure virtual, modified-removed `Shape::area()`
gets its declaration from `writeFunction` and nothing else: the output is not
the declaration followed by a dispatcher. -/
theorem writeFunction_abstract_removed_no_dispatcher :
    demoArea.isAbstract = true ∧ demoArea.isModifiedRemoved = true ∧
      writeFunction (demoGenerator []) 1 "" demoArea = "    virtual area();\n" ∧
      writeFunction (demoGenerator []) 1 "" demoArea ≠
        writeVirtualDispatcher (demoGenerator []) 1 "    virtual area();\n" demoArea := by
  decide

/-- C5, amended: for an abstract, modified-removed function `writeFunction`
writes no dispatcher: its whole output is the `virtual` declaration (nothing
when the function is private or a copy constructor).  The default-value body
(`0`, or the default-constructed return type) is what `writeVirtualDispatcher`
writes for such a function when it is called on it. -/
theorem writeFunction_abstract_removed_declares_only (g : Generator) (n : Nat) (s : String)
    (f : AbstractMetaFunction)
    (ha : f.isAbstract = true) (hm : f.isModifiedRemoved = true) :
    writeFunction g n s f =
        (if f.isPrivate || f.isCopyConstructor then s
         else s ++ (g.indent n ++ "virtual " ++ g.functionSignature f ++ ";\n")) ∧
      writeFunction g n s f ≠ writeVirtualDispatcher g n (s ++ declarationText g n f) f ∧
      writeVirtualDispatcher g n s f = s ++ dispatcherText g n f (defaultValueBody g f) := by
  have hout : writeFunction g n s f =
      (if f.isPrivate || f.isCopyConstructor then s
       else s ++ (g.indent n ++ "virtual " ++ g.functionSignature f ++ ";\n")) := by
    by_cases hp : f.isPrivate = true
    · rw [writeFunction_of_skip g n s f (Or.inl hp)]
      simp [hp]
    · have hp2 : f.isPrivate = false := by simpa using hp
      by_cases hc : f.isCopyConstructor = true
      · rw [writeFunction_of_skip g n s f (Or.inr (Or.inr hc))]
        simp [hc]
      · have hc2 : f.isCopyConstructor = false := by simpa using hc
        rw [writeFunction_eq g n s f hp2 (by simp [ha]) hc2]
        simp [ha, hp2, hc2, declarationText]
  refine ⟨hout, ?_, ?_⟩
  · intro e
    have h1 := congrArg String.length e
    rw [writeVirtualDispatcher_eq] at h1
    have h2 := length_dispatcherText_pos g n f
      (if f.isModifiedRemoved && f.isAbstract then defaultValueBody g f
       else callThroughBody g f)
    have h3 := length_declarationText_pos g n f
    have h4 : (writeFunction g n s f).length ≤ (s ++ declarationText g n f).length := by
      rw [hout]
      split
      · simp
      · simp [declarationText, ha]
    simp only [String.length_append] at h1 h4
    omega
  · rw [writeVirtualDispatcher_eq]
    simp [ha, hm]

theorem writeFunction_abstract_removed_declares_only_witness :
    demoArea.isAbstract = true ∧ demoArea.isModifiedRemoved = true ∧
      writeVirtualDispatcher (demoGenerator []) 1 "" demoArea =
        "" ++ dispatcherText (demoGenerator []) 1 demoArea
          (defaultValueBody (demoGenerator []) demoArea) :=
  ⟨rfl, rfl,
    (writeFunction_abstract_removed_declares_only (demoGenerator []) 1 "" demoArea
      rfl rfl).2.2⟩

/-! ## Converter declarations and implementations -/

/-- C6: the declaration written by `writeTypeConverterDecl` lists exactly the
members of the required set: `createWrapper` always, `isConvertible` iff the
implicit-conversion list is non-empty, `toPython` iff the type is a value type,
`toCpp` and `copyCppObject` iff it is a value type with a non-empty list.  For
a value type without implicit conversions the members are `createWrapper` and
`toPython` and no other. -/
theorem writeTypeConverterDecl_members (g : Generator) (n : Nat) (s : String)
    (t : TypeEntry) :
    writeTypeConverterDecl g n s t =
        s ++ converterDeclHead g t
          ++ memberDeclarations g n t (specRequiredMembers t (g.implicitConversions t))
          ++ "\x7d;" ++ "\n" ∧
      (specRequiredMembers t (g.implicitConversions t)).createWrapper = true ∧
      ((specRequiredMembers t (g.implicitConversions t)).isConvertible = true ↔
        g.implicitConversions t ≠ []) ∧
      ((specRequiredMembers t (g.implicitConversions t)).toPython = true ↔
        t.isValue = true) ∧
      ((specRequiredMembers t (g.implicitConversions t)).toCpp = true ↔
        (t.isValue = true ∧ g.implicitConversions t ≠ [])) ∧
      ((specRequiredMembers t (g.implicitConversions t)).copyCppObject = true ↔
        (t.isValue = true ∧ g.implicitConversions t ≠ [])) ∧
      (t.isValue = true → g.implicitConversions t = [] →
        writeTypeConverterDecl g n s t =
          s ++ converterDeclHead g t ++ createWrapperDeclText g n t
            ++ toPythonDeclText g n t ++ "\x7d;" ++ "\n") := by
  have hne : ∀ l : List ImplicitConversion, (!l.isEmpty) = true ↔ l ≠ [] := by
    intro l
    cases l <;> simp
  refine ⟨writeTypeConverterDecl_spec g n s t, rfl, ?_, ?_, ?_, ?_, ?_⟩
  · exact hne _
  · rfl
  · simp only [specRequiredMembers, Bool.and_eq_true, hne]
  · simp only [specRequiredMembers, Bool.and_eq_true, hne]
  · intro hv he
    rw [writeTypeConverterDecl_eq, he, hv]
    simp only [List.isEmpty_nil, Bool.not_true, Bool.false_eq_true, if_false, if_true,
      Bool.and_false, String.append_assoc, String.empty_append]

theorem writeTypeConverterDecl_members_witness :
    demoPointEntry.isValue = true ∧ (demoGenerator []).implicitConversions demoPointEntry = [] ∧
      writeTypeConverterDecl (demoGenerator []) 1 "" demoPointEntry =
        "" ++ converterDeclHead (demoGenerator []) demoPointEntry
          ++ createWrapperDeclText (demoGenerator []) 1 demoPointEntry
          ++ toPythonDeclText (demoGenerator []) 1 demoPointEntry ++ "\x7d;" ++ "\n" :=
  ⟨rfl, rfl,
    (writeTypeConverterDecl_members (demoGenerator []) 1 "" demoPointEntry).2.2.2.2.2.2
      rfl rfl⟩

set_option maxRecDepth 100000 in
/-- C7, as stated, fails: `Point` is a value type without conversion rule
whose one implicit conversion `Point(Str)` is modified-removed; the text
written by `writeTypeConverterImpl` holds no `if (` at all, while the same
type with the one conversion `Point(int)` gets one. -/
theorem toCpp_removed_conversion_has_no_branch :
    demoPointEntry.isValue = true ∧ demoPointEntry.hasConversionRule = false ∧
      ((demoGenerator [demoConvStr]).implicitConversions demoPointEntry).length = 1 ∧
      countOccurrences "if ("
        (writeTypeConverterImpl (demoGenerator [demoConvStr]) 1 "" demoPointEntry) = 0 ∧
      countOccurrences "if ("
        (writeTypeConverterImpl (demoGenerator [demoConvInt]) 1 "" demoPointEntry) = 1 := by
  decide

/-- C7, amended: for a value type without conversion rule and with a non-empty
implicit-conversion list, the `toCpp` body holds one conditional branch for
each conversion that is not modified-removed (so N branches when none is),
in list order, each testing its conversion's first-argument type, chained by
`else`, and then the one unconditional fallback
`return *Converter<T* >::toCpp(pyobj);`. -/
theorem writeTypeConverterImpl_toCpp_branches (g : Generator) (n : Nat) (s : String)
    (t : TypeEntry) (hv : t.isValue = true) (hr : t.hasConversionRule = false)
    (hne : g.implicitConversions t ≠ []) :
    writeTypeConverterImpl g n s t =
        s ++ createWrapperImplText g n t (baseWrapperCall g t)
          ++ isConvertibleImplText g n t ((g.implicitConversions t).map (conversionCheck g))
          ++ toPythonImplText g n t
          ++ ("inline " ++ t.name ++ " Converter<" ++ t.name ++ " >::toCpp(PyObject* pyobj)"
            ++ "\n" ++ "\x7b" ++ "\n" ++ g.indent n
            ++ String.intercalate (g.indent n ++ "else ")
              (((g.implicitConversions t).filter (fun c => !c.ctor.isModifiedRemoved)).map
                (fun c =>
                  "if (" ++ g.cpythonCheckFunctionMetaType c.firstArgumentType ++ "(pyobj))"
                    ++ "\n" ++ g.indent (n + 1) ++ "return " ++ t.name ++ "("
                    ++ g.writeBaseConversion c.firstArgumentType ++ "toCpp(pyobj));" ++ "\n"))
            ++ g.indent n ++ "return *Converter<" ++ t.name ++ "* >::toCpp(pyobj);" ++ "\n"
            ++ "\x7d" ++ "\n" ++ "\n")
          ++ copyCppObjectImplText g n t ∧
      ((g.implicitConversions t).filter (fun c => !c.ctor.isModifiedRemoved)).length
          + ((g.implicitConversions t).filter (fun c => c.ctor.isModifiedRemoved)).length =
        (g.implicitConversions t).length ∧
      ((∀ c ∈ g.implicitConversions t, c.ctor.isModifiedRemoved = false) →
        (g.implicitConversions t).filter (fun c => !c.ctor.isModifiedRemoved) =
          g.implicitConversions t) := by
  refine ⟨?_, ?_, ?_⟩
  · rw [writeTypeConverterImpl_eq g n s t hr]
    have he := isEmpty_eq_false_of_ne_nil _ hne
    have hb : toCppBranch g n t = fun c =>
        "if (" ++ g.cpythonCheckFunctionMetaType c.firstArgumentType ++ "(pyobj))"
          ++ "\n" ++ g.indent (n + 1) ++ "return " ++ t.name ++ "("
          ++ g.writeBaseConversion c.firstArgumentType ++ "toCpp(pyobj));" ++ "\n" := rfl
    simp only [valueMembersImplText, hv, he, Bool.or_true, if_true, Bool.not_false,
      toCppImplText, keptConversions, hb, String.append_assoc]
  · induction g.implicitConversions t with
    | nil => rfl
    | cons c cs ih =>
      cases hc : c.ctor.isModifiedRemoved <;> simp [List.filter, hc] <;> omega
  · intro hall
    rw [List.filter_eq_self]
    intro c hc
    simp [hall c hc]

theorem writeTypeConverterImpl_toCpp_branches_witness :
    demoPointEntry.isValue = true ∧ demoPointEntry.hasConversionRule = false ∧
      (demoGenerator [demoConvInt, demoConvStr]).implicitConversions demoPointEntry ≠ [] ∧
      (((demoGenerator [demoConvInt, demoConvStr]).implicitConversions demoPointEntry).filter
            (fun c => !c.ctor.isModifiedRemoved)).length
          + (((demoGenerator [demoConvInt, demoConvStr]).implicitConversions
              demoPointEntry).filter (fun c => c.ctor.isModifiedRemoved)).length =
        ((demoGenerator [demoConvInt, demoConvStr]).implicitConversions demoPointEntry).length :=
  ⟨rfl, rfl, List.cons_ne_nil _ _,
    (writeTypeConverterImpl_toCpp_branches (demoGenerator [demoConvInt, demoConvStr]) 1 ""
      demoPointEntry rfl rfl (List.cons_ne_nil _ _)).2.1⟩

/-- C8: for a type without conversion rule, `writeTypeConverterImpl` writes an
`isConvertible` implementation exactly when the implicit-conversion list is
not empty, right after `createWrapper`; its return expression is the checks of
the conversions' first-argument types applied to `pyobj`, one per conversion,
in list order, joined by `||`. -/
theorem writeTypeConverterImpl_isConvertible (g : Generator) (n : Nat) (s : String)
    (t : TypeEntry) (hr : t.hasConversionRule = false) :
    writeTypeConverterImpl g n s t =
      s ++ createWrapperImplText g n t
          (if t.isObject || t.isValue then baseWrapperCall g t else enumObjectCall g n t)
        ++ (if (g.implicitConversions t).isEmpty then ""
            else
              "inline bool Converter<" ++ t.name ++ " >::isConvertible(PyObject* pyobj)" ++ "\n"
                ++ "\x7b" ++ "\n" ++ g.indent n ++ "return "
                ++ String.intercalate ("\n" ++ g.indent (n + 1) ++ " || ")
                  ((g.implicitConversions t).map
                    (fun c => g.cpythonCheckFunctionMetaType c.firstArgumentType ++ "(pyobj)"))
                ++ ";" ++ "\n" ++ "\x7d" ++ "\n" ++ "\n")
        ++ valueMembersImplText g n t := by
  rw [writeTypeConverterImpl_eq g n s t hr]
  have hb : conversionCheck g = fun c =>
      g.cpythonCheckFunctionMetaType c.firstArgumentType ++ "(pyobj)" := rfl
  cases he : (g.implicitConversions t).isEmpty <;>
    simp only [Bool.not_true, Bool.not_false, Bool.false_eq_true, if_false, if_true,
      isConvertibleImplText, hb, String.append_assoc]

set_option maxRecDepth 100000 in
theorem writeTypeConverterImpl_isConvertible_witness :
    demoPointEntry.hasConversionRule = false ∧
      writeTypeConverterImpl (demoGenerator [demoConvInt, demoConvStr]) 1 "" demoPointEntry =
        "" ++ createWrapperImplText (demoGenerator [demoConvInt, demoConvStr]) 1 demoPointEntry
            (baseWrapperCall (demoGenerator [demoConvInt, demoConvStr]) demoPointEntry)
          ++ ("inline bool Converter<Point >::isConvertible(PyObject* pyobj)\n\x7b\n"
            ++ "    return Pyint_Check(pyobj)\n         || PyStr_Check(pyobj);\n\x7d\n\n")
          ++ valueMembersImplText (demoGenerator [demoConvInt, demoConvStr]) 1
            demoPointEntry :=
  ⟨rfl,
    (writeTypeConverterImpl_isConvertible (demoGenerator [demoConvInt, demoConvStr]) 1 ""
      demoPointEntry rfl).trans (by decide)⟩

/-- C9: an enum or flag type without implicit conversions and without
conversion rule gets a declaration that derives from `Converter_CppEnum` and
has `createWrapper` as its only member, and an implementation that is
`createWrapper` alone, built by `PyEnumObject_New` from the type object, the
label and the value cast to `long`.  For an object or value type the
`createWrapper` body is built by `PyBaseWrapper_New`. -/
theorem enum_converter_createWrapper_only (g : Generator) (n : Nat) (s : String)
    (t : TypeEntry) (hr : t.hasConversionRule = false) :
    ((t.isEnum = true ∨ t.isFlags = true) → g.implicitConversions t = [] →
      writeTypeConverterDecl g n s t =
          s ++ ("template<>" ++ "\n" ++ "struct Converter<" ++ t.name ++ pointerQualifier g t
            ++ " > : " ++ "Converter_CppEnum" ++ "<" ++ t.name ++ pointerQualifier g t ++ " >"
            ++ "\n" ++ "\x7b" ++ "\n")
          ++ (g.indent n ++ "static PyObject* createWrapper(" ++ t.name ++ " cppobj);" ++ "\n")
          ++ "\x7d;" ++ "\n" ∧
        writeTypeConverterImpl g n s t =
          s ++ ("inline PyObject* Converter<" ++ t.name ++ pointerQualifier g t
            ++ " >::createWrapper(" ++ t.name ++ " cppobj)" ++ "\n" ++ "\x7b" ++ "\n"
            ++ g.indent n ++ "return " ++ "Shiboken::"
            ++ ("PyEnumObject_New(" ++ "\n" ++ g.indent (n + 2) ++ "&" ++ g.cpythonTypeName t
              ++ "," ++ "\n" ++ g.indent (n + 2) ++ "\"ReturnedValue\", (long)")
            ++ " cppobj);" ++ "\n" ++ "\x7d" ++ "\n" ++ "\n")) ∧
    ((t.isObject = true ∨ t.isValue = true) →
      writeTypeConverterImpl g n s t =
        s ++ ("inline PyObject* Converter<" ++ t.name ++ pointerQualifier g t
            ++ " >::createWrapper(" ++ ("const " ++ t.name ++ "*") ++ " cppobj)" ++ "\n"
            ++ "\x7b" ++ "\n" ++ g.indent n ++ "return " ++ "Shiboken::"
            ++ ("PyBaseWrapper_New(&" ++ g.cpythonTypeName t ++ ", &" ++ g.cpythonTypeName t
              ++ ",")
            ++ " cppobj);" ++ "\n" ++ "\x7d" ++ "\n" ++ "\n")
          ++ (if !(g.implicitConversions t).isEmpty then
                isConvertibleImplText g n t ((g.implicitConversions t).map (conversionCheck g))
              else "")
          ++ valueMembersImplText g n t) := by
  constructor
  · intro hef he
    have hV : t.isValue = false := by
      rcases category_flags t with ⟨hE, hF, hV, hO⟩ | ⟨hE, hF, hV, hO⟩ | ⟨hE, hF, hV, hO⟩ |
        ⟨hE, hF, hV, hO⟩ | ⟨hE, hF, hV, hO⟩ <;> simp_all
    have hO : t.isObject = false := by
      rcases category_flags t with ⟨hE, hF, hV, hO⟩ | ⟨hE, hF, hV, hO⟩ | ⟨hE, hF, hV, hO⟩ |
        ⟨hE, hF, hV, hO⟩ | ⟨hE, hF, hV, hO⟩ <;> simp_all
    have hEF : (t.isEnum || t.isFlags) = true := by
      rcases hef with h | h <;> simp [h]
    have hEF2 : (!t.isEnum && !t.isFlags) = false := by
      rcases hef with h | h <;> simp [h]
    constructor
    · rw [writeTypeConverterDecl_eq, he]
      simp only [converterDeclHead, createWrapperDeclText, createWrapperArgument, hV, hEF,
        hEF2, List.isEmpty_nil, Bool.not_true, Bool.false_eq_true, if_false, if_true,
        Bool.and_false, Bool.false_and, String.append_assoc, String.empty_append]
    · rw [writeTypeConverterImpl_eq g n s t hr, he]
      simp only [createWrapperImplText, createWrapperArgument, enumObjectCall,
        valueMembersImplText, hV, hO, hEF2, List.isEmpty_nil, Bool.not_true, Bool.or_self,
        Bool.false_eq_true, if_false, String.append_assoc, String.append_empty]
  · intro hov
    have hOV : (t.isObject || t.isValue) = true := by
      rcases hov with h | h <;> simp [h]
    have hEF2 : (!t.isEnum && !t.isFlags) = true := by
      rcases category_flags t with ⟨hE, hF, hV, hO⟩ | ⟨hE, hF, hV, hO⟩ | ⟨hE, hF, hV, hO⟩ |
        ⟨hE, hF, hV, hO⟩ | ⟨hE, hF, hV, hO⟩ <;> simp_all
    rw [writeTypeConverterImpl_eq g n s t hr]
    simp only [createWrapperImplText, createWrapperArgument, baseWrapperCall, hOV, hEF2,
      if_true, String.append_assoc]

set_option maxRecDepth 100000 in
theorem enum_converter_createWrapper_only_witness :
    demoColorEntry.hasConversionRule = false ∧ demoColorEntry.isEnum = true ∧
      (demoGenerator []).implicitConversions demoColorEntry = [] ∧
      writeTypeConverterImpl (demoGenerator []) 1 "" demoColorEntry =
        "inline PyObject* Converter<Color >::createWrapper(Color cppobj)\n\x7b\n"
          ++ "    return Shiboken::PyEnumObject_New(\n            &PyColor_Type,\n"
          ++ "            \"ReturnedValue\", (long) cppobj);\n\x7d\n\n" :=
  ⟨rfl, rfl, rfl,
    (((enum_converter_createWrapper_only (demoGenerator []) 1 "" demoColorEntry rfl).1
      (Or.inl rfl) rfl).2).trans (by decide)⟩

/-- C10: for a type that carries a conversion rule `writeTypeConverterImpl`
returns the implementation stream as it was, whatever the category and the
implicit conversions, while `writeTypeConverterDecl` still writes the whole
converter declaration. -/
theorem conversionRule_suppresses_implementation (g : Generator) (n : Nat) (s : String)
    (t : TypeEntry) (h : t.hasConversionRule = true) :
    writeTypeConverterImpl g n s t = s ∧
      writeTypeConverterDecl g n s t =
        s ++ converterDeclHead g t
          ++ memberDeclarations g n t (specRequiredMembers t (g.implicitConversions t))
          ++ "\x7d;" ++ "\n" ∧
      writeTypeConverterDecl g n s t ≠ s := by
  refine ⟨?_, writeTypeConverterDecl_spec g n s t, ?_⟩
  · unfold writeTypeConverterImpl
    rw [if_pos h]
  · rw [writeTypeConverterDecl_spec]
    intro e
    have := congrArg String.length e
    simp only [String.length_append] at this
    have h2 : ("\n" : String).length = 1 := by decide
    omega

theorem conversionRule_suppresses_implementation_witness :
    demoMoneyEntry.hasConversionRule = true ∧
      writeTypeConverterImpl (demoGenerator []) 1 "text" demoMoneyEntry = "text" :=
  ⟨rfl,
    (conversionRule_suppresses_implementation (demoGenerator []) 1 "text" demoMoneyEntry
      rfl).1⟩

/-! ## File names, dispatcher bodies and wrapper headers -/

/-- C16: `fileNameForClass` returns the lower-cased qualified name with every
`::` replaced by `_`, followed by `_wrapper.h`.  The replacement goes from left
to right: a text that holds no `::` is left as it is, and behind a stretch
without `::` that does not end in a colon the next `::` becomes `_` and the
replacement goes on after it.  So for a name made of segments without colon
joined by `::` the result is the lower-cased segments joined by `_` and the
suffix; the result holds no `::` and no upper-case letter and ends with
`_wrapper.h`. -/
theorem fileNameForClass_shape (g : Generator) (p : ClassPtr) :
    fileNameForClass g p =
        QString.replaceScope (QString.toLower (g.classAt p).qualifiedCppName) ++ "_wrapper.h" ∧
      countOccurrences "::" (fileNameForClass g p) = 0 ∧
      (∀ c ∈ (fileNameForClass g p).data, c.isUpper = false) ∧
      (∃ stem, fileNameForClass g p = stem ++ "_wrapper.h") ∧
      (countOccurrences "::" (QString.toLower (g.classAt p).qualifiedCppName) = 0 →
        fileNameForClass g p =
          QString.toLower (g.classAt p).qualifiedCppName ++ "_wrapper.h") ∧
      (∀ a b : String, countOccurrences "::" (a ++ ":") = 0 →
        QString.replaceScope (a ++ "::" ++ b) = a ++ "_" ++ QString.replaceScope b) ∧
      (∀ a : String, (QString.toLower a).data = a.data.map Char.toLower) ∧
      (∀ segs : List String,
        (g.classAt p).qualifiedCppName = String.intercalate "::" segs →
        (∀ s ∈ segs, ':' ∉ s.data) →
        fileNameForClass g p =
          String.intercalate "_" (segs.map QString.toLower) ++ "_wrapper.h") := by
  refine ⟨rfl, ?_, ?_, ⟨_, rfl⟩, ?_, replaceScope_leftmost, fun _ => rfl,
    fileName_segments g p⟩
  · unfold countOccurrences fileNameForClass QString.replaceScope
    rw [String.data_append]
    show countOccurrencesAux [':', ':'] _ = 0
    rw [count_scope_replaceScopeAux]
    · decide
    · intro tl h
      have h2 : ("_wrapper.h" : String).data.head? = some ':' := by rw [h]; rfl
      exact absurd h2 (by decide)
  · intro c hc
    unfold fileNameForClass QString.replaceScope QString.toLower at hc
    rw [String.data_append, List.mem_append] at hc
    rcases hc with hc | hc
    · rcases mem_replaceScopeAux _ _ hc with h1 | h1
      · rw [h1]; rfl
      · obtain ⟨a, -, rfl⟩ := List.mem_map.mp h1
        exact isUpper_toLower a
    · revert c
      decide
  · intro h0
    unfold fileNameForClass QString.replaceScope
    rw [replaceScopeAux_of_count_zero _ h0]

theorem fileNameForClass_shape_witness :
    ((demoHeaderGen [] []).toGenerator.classAt 2).qualifiedCppName =
        String.intercalate "::" ["Outer", "Inner"] ∧
      (∀ s ∈ ["Outer", "Inner"], ':' ∉ s.data) ∧
      fileNameForClass (demoHeaderGen [] []).toGenerator 2 = "outer_inner_wrapper.h" :=
  ⟨by decide, by decide,
    ((fileNameForClass_shape (demoHeaderGen [] []).toGenerator 2).2.2.2.2.2.2.2
      ["Outer", "Inner"] (by decide) (by decide)).trans (by decide)⟩

/-- C17: the dispatcher written by `writeVirtualDispatcher` has `return `
exactly when the function has a return type.  For a function that is
modified-removed and abstract the body is `0` when the return type is an
object type, a QObject type or named `void`, and the default-constructed
return type otherwise; for every other function it is the scope-qualified
call `self.<implementing class>::<call>`. -/
theorem writeVirtualDispatcher_body (g : Generator) (n : Nat) (s : String)
    (f : AbstractMetaFunction) :
    (∀ body, dispatcherText g n f body =
        g.indent n ++ "static " ++ g.signatureForDefaultVirtualMethod f "" "_dispatcher"
          ++ " \x7b\n" ++ g.indent (n + 1) ++ (if f.type ≠ none then "return " else "")
          ++ body ++ ";\n" ++ g.indent n ++ "\x7d\n") ∧
      (f.isModifiedRemoved = true → f.isAbstract = true →
        ∀ t, f.type = some t → (t.isObject = true ∨ t.isQObject = true ∨ t.name = "void") →
          writeVirtualDispatcher g n s f = s ++ dispatcherText g n f "0") ∧
      (f.isModifiedRemoved = true → f.isAbstract = true →
        (∀ t, f.type = some t →
          ¬ (t.isObject = true ∨ t.isQObject = true ∨ t.name = "void")) →
        writeVirtualDispatcher g n s f =
          s ++ dispatcherText g n f (g.functionReturnType f ++ "()")) ∧
      (¬ (f.isModifiedRemoved = true ∧ f.isAbstract = true) →
        writeVirtualDispatcher g n s f =
          s ++ dispatcherText g n f
            ("self." ++ (g.classAt f.implementingClass).qualifiedCppName ++ "::"
              ++ g.writeFunctionCall f)) := by
  refine ⟨?_, ?_, ?_, ?_⟩
  · intro body
    unfold dispatcherText
    cases f.type <;> simp
  · intro hm ha t ht hcond
    rw [writeVirtualDispatcher_eq]
    simp only [hm, ha, Bool.and_self, if_true, defaultValueBody, ht]
    have : (t.isObject || t.isQObject || t.name == "void") = true := by
      simpa [Bool.or_eq_true, or_assoc] using hcond
    rw [if_pos this]
  · intro hm ha hcond
    rw [writeVirtualDispatcher_eq]
    simp only [hm, ha, Bool.and_self, if_true, defaultValueBody]
    cases ht : f.type with
    | none => simp
    | some t =>
      have : ¬ (t.isObject || t.isQObject || t.name == "void") = true := by
        simpa [Bool.or_eq_true, or_assoc] using hcond t ht
      rw [if_neg this]
  · intro hn
    rw [writeVirtualDispatcher_eq]
    have : ¬ (f.isModifiedRemoved && f.isAbstract) = true := by
      simpa [Bool.and_eq_true] using hn
    rw [if_neg this]
    rfl

theorem writeVirtualDispatcher_body_witness :
    demoArea.isModifiedRemoved = true ∧ demoArea.isAbstract = true ∧
      writeVirtualDispatcher (demoGenerator []) 1 "" demoArea =
        "" ++ dispatcherText (demoGenerator []) 1 demoArea
          ((demoGenerator []).functionReturnType demoArea ++ "()") :=
  ⟨rfl, rfl,
    (writeVirtualDispatcher_body (demoGenerator []) 1 "" demoArea).2.2.1 rfl rfl
      (by decide)⟩

/-! ## Declared and implemented converter members -/

set_option maxRecDepth 100000 in
/-- C12, the code at the failing input: `Figure` is a value type whose class
is abstract.  The declaration is the specialization `Converter<Figure* >` and
declares `createWrapper` and `toPython`; the implementation of `createWrapper`
is written for `Converter<Figure* >`, that of `toPython` for
`Converter<Figure >`, which was not declared. -/
theorem abstract_value_type_converter_texts :
    demoFigureEntry.isValue = true ∧ demoFigure.isAbstract = true ∧
      demoFigureEntry.hasConversionRule = false ∧
      writeTypeConverterDecl demoFigureGenerator 1 "" demoFigureEntry =
        "template<>\nstruct Converter<Figure* > : ConverterBase<Figure* >\n\x7b\n"
          ++ "    static PyObject* createWrapper(const Figure* cppobj);\n"
          ++ "    static PyObject* toPython(const Figure& cppobj);\n\x7d;\n" ∧
      writeTypeConverterImpl demoFigureGenerator 1 "" demoFigureEntry =
        "inline PyObject* Converter<Figure* >::createWrapper(const Figure* cppobj)\n\x7b\n"
          ++ "    return Shiboken::PyBaseWrapper_New(&PyFigure_Type, &PyFigure_Type, cppobj);\n"
          ++ "\x7d\n\n"
          ++ "inline PyObject* Converter<Figure >::toPython(const Figure& cppobj)\n\x7b\n"
          ++ "    return Converter<Figure >::createWrapper(new Figure(cppobj));\n\x7d\n\n" := by
  decide

/-- C19: for a type without conversion rule the declaration written by
`writeTypeConverterDecl` and the implementations written by
`writeTypeConverterImpl` are those of one and the same member set, the required
set of the type and its implicit-conversion list: `createWrapper`, and each of
`isConvertible`, `toPython`, `toCpp`, `copyCppObject` on both sides or on
neither, whatever the category and whichever conversions are
modified-removed. -/
theorem implemented_members_eq_declared (g : Generator) (n : Nat) (sd si : String)
    (t : TypeEntry) (h : t.hasConversionRule = false) :
    writeTypeConverterDecl g n sd t =
        sd ++ converterDeclHead g t
          ++ memberDeclarations g n t (specRequiredMembers t (g.implicitConversions t))
          ++ "\x7d;" ++ "\n" ∧
      writeTypeConverterImpl g n si t =
        si ++ memberImplementations g n t (specRequiredMembers t (g.implicitConversions t)) :=
  ⟨writeTypeConverterDecl_spec g n sd t, writeTypeConverterImpl_spec g n si t h⟩

theorem implemented_members_eq_declared_witness :
    demoPointEntry.hasConversionRule = false ∧
      (∀ c ∈ (demoGenerator [demoConvStr]).implicitConversions demoPointEntry,
        c.ctor.isModifiedRemoved = true) ∧
      writeTypeConverterImpl (demoGenerator [demoConvStr]) 1 "" demoPointEntry =
        "" ++ memberImplementations (demoGenerator [demoConvStr]) 1 demoPointEntry
          (specRequiredMembers demoPointEntry
            ((demoGenerator [demoConvStr]).implicitConversions demoPointEntry)) :=
  ⟨rfl, by decide,
    (implemented_members_eq_declared (demoGenerator [demoConvStr]) 1 "" "" demoPointEntry
      rfl).2⟩

/-- C20: for a value type without conversion rule and with a non-empty
implicit-conversion list, the checks tested by the `toCpp` branches are the
checks of the conversions that are not modified-removed, a subsequence in the
same order of the checks of the `isConvertible` disjunction; the two sequences
are equal if and only if no conversion of the list is modified-removed. -/
theorem toCpp_checks_sublist_of_isConvertible (g : Generator) (n : Nat) (s : String)
    (t : TypeEntry) (hv : t.isValue = true) (hr : t.hasConversionRule = false)
    (hne : g.implicitConversions t ≠ []) :
    writeTypeConverterImpl g n s t =
        s ++ createWrapperImplText g n t (baseWrapperCall g t)
          ++ isConvertibleImplText g n t ((g.implicitConversions t).map (conversionCheck g))
          ++ toPythonImplText g n t
          ++ toCppImplText g n t
            ((keptConversions (g.implicitConversions t)).map
              (fun c => "if (" ++ conversionCheck g c ++ ")" ++ "\n" ++ g.indent (n + 1)
                ++ "return " ++ t.name ++ "(" ++ g.writeBaseConversion c.firstArgumentType
                ++ "toCpp(pyobj));" ++ "\n"))
          ++ copyCppObjectImplText g n t ∧
      keptConversions (g.implicitConversions t) =
        (g.implicitConversions t).filter (fun c => !c.ctor.isModifiedRemoved) ∧
      List.Sublist ((keptConversions (g.implicitConversions t)).map (conversionCheck g))
        ((g.implicitConversions t).map (conversionCheck g)) ∧
      ((keptConversions (g.implicitConversions t)).map (conversionCheck g) =
          (g.implicitConversions t).map (conversionCheck g) ↔
        ∀ c ∈ g.implicitConversions t, c.ctor.isModifiedRemoved = false) := by
  refine ⟨?_, rfl, ?_, ?_⟩
  · rw [writeTypeConverterImpl_eq g n s t hr]
    have he := isEmpty_eq_false_of_ne_nil _ hne
    have hb : toCppBranch g n t = fun c =>
        "if (" ++ conversionCheck g c ++ ")" ++ "\n" ++ g.indent (n + 1)
          ++ "return " ++ t.name ++ "(" ++ g.writeBaseConversion c.firstArgumentType
          ++ "toCpp(pyobj));" ++ "\n" := by
      funext c
      unfold toCppBranch conversionCheck
      apply String.ext
      simp only [String.data_append, List.append_assoc]
      rfl
    simp only [valueMembersImplText, hv, he, Bool.or_true, if_true, Bool.not_false, hb,
      String.append_assoc]
  · exact List.Sublist.map _ (List.filter_sublist _)
  · unfold keptConversions
    rw [map_filter_eq_map_iff]
    simp

theorem toCpp_checks_sublist_of_isConvertible_witness :
    demoPointEntry.isValue = true ∧ demoPointEntry.hasConversionRule = false ∧
      (demoGenerator [demoConvInt, demoConvStr]).implicitConversions demoPointEntry ≠ [] ∧
      List.Sublist
        ((keptConversions
          ((demoGenerator [demoConvInt, demoConvStr]).implicitConversions demoPointEntry)).map
            (conversionCheck (demoGenerator [demoConvInt, demoConvStr])))
        (((demoGenerator [demoConvInt, demoConvStr]).implicitConversions demoPointEntry).map
          (conversionCheck (demoGenerator [demoConvInt, demoConvStr]))) :=
  ⟨rfl, rfl, List.cons_ne_nil _ _,
    (toCpp_checks_sublist_of_isConvertible (demoGenerator [demoConvInt, demoConvStr]) 1 ""
      demoPointEntry rfl rfl (List.cons_ne_nil _ _)).2.2.1⟩

/-! ## Wrapper headers and the module header -/

set_option maxHeartbeats 2000000 in
/-- C11: the header written by `generateClass` is the license comment, the
include guard `#ifndef`/`#define` on the upper-cased wrapper name followed by
`_H`, the include of `shiboken.h`, the include of the class and the declaration
snips, and the closing `#endif` on the same token; the `#define protected
public` lines and the wrapper class body (class head, functions, destructor)
are written if and only if the class is neither a namespace nor has a private
destructor. -/
theorem generateClass_guard_and_body (h : HeaderGen) (n : Nat) (s : String) (p : ClassPtr) :
    generateClass h n s p =
        s ++ h.licenseComment
          ++ ("#ifndef " ++ QString.toUpper (h.wrapperName p) ++ "_H" ++ "\n"
            ++ "#define " ++ QString.toUpper (h.wrapperName p) ++ "_H" ++ "\n" ++ "\n")
          ++ (if !(h.classAt p).isNamespace && !(h.classAt p).hasPrivateDestructor then
                protectedHackText else "")
          ++ ("#include <shiboken.h>" ++ "\n" ++ "\n")
          ++ (if (h.classAt p).typeEntry.includeDirective.isValid then
                (h.classAt p).typeEntry.includeDirective.toString ++ "\n" ++ "\n" else "")
          ++ h.writeCodeSnips (n + 1) (h.classAt p).typeEntry CodeSnipPosition.Declaration
          ++ (if !(h.classAt p).isNamespace && !(h.classAt p).hasPrivateDestructor then
                wrapperClassText h n p else "")
          ++ ("#endif // " ++ QString.toUpper (h.wrapperName p) ++ "_H" ++ "\n" ++ "\n") ∧
      ((!(h.classAt p).isNamespace && !(h.classAt p).hasPrivateDestructor) = true ↔
        ((h.classAt p).isNamespace = false ∧ (h.classAt p).hasPrivateDestructor = false)) ∧
      0 < (wrapperClassText h n p).length := by
  refine ⟨?_, ?_, ?_⟩
  · unfold generateClass wrapperClassText protectedHackText
    simp only [foldl_append_only _ (writeFunction_append h.toGenerator (n + 1)),
      writeCopyCtor_append h (n + 1) (_ ++ _)]
    cases (!(h.classAt p).isNamespace && !(h.classAt p).hasPrivateDestructor) <;>
      cases (h.classAt p).typeEntry.includeDirective.isValid <;>
      cases (h.classAt p).hasCloneOperator <;>
      cases ((h.classAt p).isQObject && (h.classAt p).name != "QObject") <;>
      simp only [Bool.false_eq_true, if_false, if_true, String.append_assoc,
        String.append_empty, String.empty_append]
  · cases (h.classAt p).isNamespace <;> cases (h.classAt p).hasPrivateDestructor <;> simp
  · unfold wrapperClassText
    simp only [String.length_append]
    have : ("\n" : String).length = 1 := by decide
    omega

set_option maxRecDepth 100000 in
theorem generateClass_guard_and_body_witness :
    (demoClassAt 3).isNamespace = true ∧
      generateClass (demoHeaderGen [] []) 0 "" 3 =
        "// license\n" ++ "#ifndef GEOWRAPPER_H\n" ++ "#define GEOWRAPPER_H\n\n"
          ++ "#include <shiboken.h>\n\n" ++ "#endif // GEOWRAPPER_H\n\n" :=
  ⟨rfl, ((generateClass_guard_and_body (demoHeaderGen [] []) 0 "" 3).1).trans (by decide)⟩

/-- C13: a second run of `finishGeneration`, started with the package name that
the first run stored, returns what the first run returned: the same stored
package name, the same path and the same header text.  The stored name is the
starting name unless that was empty, and then the first non-empty package of an
eligible class (empty if there is none). -/
theorem finishGeneration_idempotent (h : HeaderGen) (n : Nat) (p0 : String) :
    finishGeneration h n (finishGeneration h n p0).m_packageName = finishGeneration h n p0 ∧
      (finishGeneration h n p0).m_packageName =
        (if p0 = "" then
          ((((h.classes.filter (isEligible h)).map (fun p => (h.classAt p).package)).find?
            (fun x => x != "")).getD "")
         else p0) := by
  constructor
  · rw [finishGeneration_packageName]
    unfold finishGeneration
    simp only [collectStreams_eq, foldl_packageStep_idem]
  · rw [finishGeneration_packageName, foldl_packageStep_eq]

theorem finishGeneration_idempotent_witness :
    (finishGeneration (demoHeaderGen [1] []) 0 "").m_packageName = "demo" ∧
      finishGeneration (demoHeaderGen [1] []) 0 "demo" =
        finishGeneration (demoHeaderGen [1] []) 0 "" :=
  ⟨((finishGeneration_idempotent (demoHeaderGen [1] []) 0 "").2).trans (by decide),
    (congrArg (finishGeneration (demoHeaderGen [1] []) 0)
      (((finishGeneration_idempotent (demoHeaderGen [1] []) 0 "").2).trans
        (by decide))).symm.trans
      (finishGeneration_idempotent (demoHeaderGen [1] []) 0 "").1⟩

set_option maxRecDepth 100000 in
/-- C14, the code at the failing input: `Box` is an eligible value class whose
generated inner class `Box::Items` has a type entry of container category.
`finishGeneration` collects a converter declaration for `Box::Items`, and an
implementation whose `createWrapper` takes the branch for enums and flags
(`PyEnumObject_New`), before the converters of `Box` itself. -/
theorem inner_container_class_gets_converter :
    isEligible (demoHeaderGen [5] []) 5 = true ∧
      (demoClassAt 5).innerClasses = [6] ∧
      (demoHeaderGen [5] []).shouldGenerate 6 = true ∧
      (demoClassAt 6).typeEntry.category = TypeCategory.container ∧
      hasConverterCategory (demoClassAt 6).typeEntry = false ∧
      (collectStreams (demoHeaderGen [5] []) 0 "").convertersDecl =
        "template<>\nstruct Converter<Box::Items > : ConverterBase<Box::Items >\n\x7b\n"
          ++ "    static PyObject* createWrapper(const Box::Items* cppobj);\n\x7d;\n\n"
          ++ "template<>\nstruct Converter<Box > : ConverterBase<Box >\n\x7b\n"
          ++ "    static PyObject* createWrapper(const Box* cppobj);\n"
          ++ "    static PyObject* toPython(const Box& cppobj);\n\x7d;\n\n" ∧
      (collectStreams (demoHeaderGen [5] []) 0 "").convertersImpl =
        "inline PyObject* Converter<Box::Items >::createWrapper(const Box::Items* cppobj)\n"
          ++ "\x7b\n    return Shiboken::PyEnumObject_New(\n"
          ++ "            &PyBox::Items_Type,\n"
          ++ "            \"ReturnedValue\", (long) cppobj);\n\x7d\n\n"
          ++ "inline PyObject* Converter<Box >::createWrapper(const Box* cppobj)\n\x7b\n"
          ++ "    return Shiboken::PyBaseWrapper_New(&PyBox_Type, &PyBox_Type, cppobj);\n"
          ++ "\x7d\n\n"
          ++ "inline PyObject* Converter<Box >::toPython(const Box& cppobj)\n\x7b\n"
          ++ "    return Converter<Box >::createWrapper(new Box(cppobj));\n\x7d\n\n" := by
  decide

/-- Where the collected converters come from: the converter declarations and
implementations collected by `finishGeneration` are those of the type entries
of `converterGroups`.  When the namespace flag of a class is that of its type
entry, each of these entries is of object, value, enum or flag category or is
the entry of a generated inner class of an eligible class that is not a
namespace. -/
theorem converters_only_for_collected_entries (h : HeaderGen) (n : Nat) (p0 : String)
    (hns : ∀ p ∈ h.classes, (h.classAt p).isNamespace = (h.classAt p).typeEntry.isNamespace) :
    (collectStreams h n p0).convertersDecl =
        groupDeclarations h.toGenerator (n + 1) (converterGroups h) ∧
      (collectStreams h n p0).convertersImpl =
        entryImplementations h.toGenerator (n + 1) (converterGroups h).flatten ∧
      ∀ t ∈ (converterGroups h).flatten,
        hasConverterCategory t = true ∨
          ∃ p ∈ h.classes, isEligible h p = true ∧ (h.classAt p).isNamespace = false ∧
            ∃ q ∈ (h.classAt p).innerClasses,
              h.shouldGenerate q = true ∧ t = (h.classAt q).typeEntry := by
  refine ⟨by rw [collectStreams_eq], by rw [collectStreams_eq], ?_⟩
  intro t ht
  obtain ⟨grp, hgrp, htg⟩ := List.mem_flatten.mp ht
  unfold converterGroups at hgrp
  rcases List.mem_append.mp hgrp with h1 | h1
  · obtain ⟨e, -, rfl⟩ := List.mem_map.mp h1
    left
    simp only [List.mem_singleton] at htg
    subst htg
    simp [hasConverterCategory, TypeEntry.isEnum, e.typeEntry.isEnumEntry]
  · obtain ⟨l, hl, hgl⟩ := List.mem_flatten.mp h1
    obtain ⟨p, hp, rfl⟩ := List.mem_map.mp hl
    unfold classConverterGroups at hgl
    cases he : isEligible h p
    · simp [he] at hgl
    · rw [if_pos he] at hgl
      rcases List.mem_append.mp hgl with h2 | h2
      · obtain ⟨e, -, rfl⟩ := List.mem_map.mp h2
        exact Or.inl (mem_enumConvertedEntries e t htg)
      · cases hn : (h.classAt p).isNamespace
        · rw [hn] at h2
          simp only [Bool.false_eq_true, if_false] at h2
          rcases List.mem_append.mp h2 with h3 | h3
          · obtain ⟨q, hq, rfl⟩ := List.mem_map.mp h3
            simp only [List.mem_singleton] at htg
            unfold generatedInnerClasses at hq
            obtain ⟨hq1, hq2⟩ := List.mem_filter.mp hq
            exact Or.inr ⟨p, hp, he, hn, q, hq1, hq2, htg⟩
          · simp only [List.mem_singleton] at h3
            subst h3
            simp only [List.mem_singleton] at htg
            subst htg
            left
            have hcat := hns p hp
            rw [hn] at hcat
            unfold isEligible at he
            simp only [Bool.and_eq_true, Bool.or_eq_true] at he
            unfold hasConverterCategory
            rcases he.2 with (h5 | h5) | h5
            · simp [h5]
            · simp [h5]
            · rw [h5] at hcat
              exact absurd hcat (by decide)
        · rw [hn] at h2
          simp at h2

set_option maxRecDepth 100000 in
/-- C15, as stated, fails: the eligible class `Outer` and its generated inner
class `Outer::Inner` have the same include, and the module header holds its
line twice under `// Class Includes`. -/
theorem class_includes_repeat_shared_header :
    (demoClassAt 1).typeEntry.includeDirective = (demoClassAt 2).typeEntry.includeDirective ∧
      (finishGeneration (demoHeaderGen [1] []) 0 "").written =
        some (writeModuleHeader (demoHeaderGen [1] [])
          (collectStreams (demoHeaderGen [1] []) 0 "") "DEMO_PYTHON_H") ∧
      writeModuleHeader (demoHeaderGen [1] [])
          (collectStreams (demoHeaderGen [1] []) 0 "") "DEMO_PYTHON_H" =
        headerProlog (demoHeaderGen [1] []) "DEMO_PYTHON_H"
          ++ ("// Class Includes" ++ "\n" ++ ("#include <outer.h>\n" ++ "#include <outer.h>\n")
            ++ "\n")
          ++ headerEpilog (demoHeaderGen [1] [])
            (collectStreams (demoHeaderGen [1] []) 0 "") "DEMO_PYTHON_H" ∧
      countOccurrences "#include <outer.h>\n"
        (collectStreams (demoHeaderGen [1] []) 0 "").classIncludes = 2 := by
  refine ⟨by decide, rfl, ?_, by decide⟩
  rw [writeModuleHeader_eq]
  have h1 : (collectStreams (demoHeaderGen [1] []) 0 "").classIncludes =
      "#include <outer.h>\n" ++ "#include <outer.h>\n" := by decide
  have h2 : (collectStreams (demoHeaderGen [1] []) 0 "").enumIncludes.isEmpty = true := by
    decide
  rw [h1, h2]
  simp only [if_true, String.append_empty]

/-- C15, amended: in the module header the enum includes are deduplicated: the
lines under `// Enum Includes` are pairwise distinct, one for each include file
of a global enum whose last path component is not empty.  The class includes
are the include texts of the classes in list order, one per eligible class
with a valid include and one per generated inner class of an eligible class
that is not a namespace, without any deduplication. -/
theorem enum_includes_deduplicated (h : HeaderGen) (n : Nat) (p0 shield : String) :
    writeModuleHeader h (collectStreams h n p0) shield =
        headerProlog h shield
          ++ ("// Class Includes" ++ "\n" ++ (collectStreams h n p0).classIncludes ++ "\n"
            ++ (if (collectStreams h n p0).enumIncludes.isEmpty then ""
                else "// Enum Includes" ++ "\n"
                  ++ concatAll ((collectStreams h n p0).enumIncludes.map enumIncludeLine)
                  ++ "\n"))
          ++ headerEpilog h (collectStreams h n p0) shield ∧
      ((collectStreams h n p0).enumIncludes.map enumIncludeLine).Nodup ∧
      (∀ x, x ∈ (collectStreams h n p0).enumIncludes ↔
        ∃ e ∈ h.globalEnums, e.includeFile = x ∧ lastPathComponent h.separator x ≠ "") ∧
      (collectStreams h n p0).classIncludes = concatAll (h.classes.map (classIncludesOf h)) ∧
      (∀ inc, enumIncludeLine inc = "#include <" ++ inc ++ ">" ++ "\n") := by
  refine ⟨writeModuleHeader_eq _ _ _, ?_, ?_, by rw [collectStreams_eq], ?_⟩
  · rw [collectStreams_eq]
    exact List.Nodup.map enumIncludeLine_injective
      (foldl_enumIncludeStep_nodup h _ [] List.nodup_nil)
  · intro x
    rw [collectStreams_eq]
    simp only [mem_foldl_enumIncludeStep, List.not_mem_nil, false_or]
  · intro inc
    simp only [enumIncludeLine, enumIncludeWriteStep, String.empty_append]

set_option maxRecDepth 100000 in
theorem enum_includes_deduplicated_witness :
    (collectStreams (demoHeaderGen [] [demoColorEnum, demoColorEnum]) 0 "").enumIncludes =
        ["gfx/colors.h"] ∧
      ((collectStreams (demoHeaderGen [] [demoColorEnum, demoColorEnum]) 0 "").enumIncludes.map
        enumIncludeLine).Nodup :=
  ⟨by decide,
    (enum_includes_deduplicated (demoHeaderGen [] [demoColorEnum, demoColorEnum]) 0 ""
      "DEMO_PYTHON_H").2.1⟩

set_option maxRecDepth 100000 in
/-- C18, as stated, fails: the namespace `Geo` is an eligible class with the
member enum `Unit` and the generated inner class `Spot`; the type-registration
block and the converter declarations hold what the enum adds and nothing for
`Spot` or for `Geo` itself: no type-check macro, no `_cptr` macro, no converter
declaration. -/
theorem namespace_class_adds_enums_only :
    isEligible (demoHeaderGen [3] []) 3 = true ∧
      (demoClassAt 3).typeEntry.isNamespace = true ∧ (demoClassAt 3).isNamespace = true ∧
      (demoClassAt 3).innerClasses = [4] ∧ (demoHeaderGen [3] []).shouldGenerate 4 = true ∧
      (collectStreams (demoHeaderGen [3] []) 0 "").pythonTypeStuff =
        "\n// Global enums\nPyAPI_DATA(PyTypeObject) PyGeo::Unit_Type;\n"
          ++ "#define PyGeo::Unit_Check(op) PyObject_TypeCheck(op, &PyGeo::Unit_Type)\n"
          ++ "#define PyGeo::Unit_CheckExact(op) ((op)->ob_type == &PyGeo::Unit_Type)\n\n" ∧
      (collectStreams (demoHeaderGen [3] []) 0 "").convertersDecl =
        "template<>\nstruct Converter<Geo::Unit > : Converter_CppEnum<Geo::Unit >\n\x7b\n"
          ++ "    static PyObject* createWrapper(Geo::Unit cppobj);\n\x7d;\n\n" := by
  decide

/-- C18, amended: the type-registration block and the converter declarations
collected by `finishGeneration` are, after the global enums, what the classes
add in list order.  An eligible class adds the type-check macro and converter
declarations of each member enum and, only when it is not a namespace, the
`_New` prototype, type-check macro and converter declaration of each generated
inner class and then of the class itself with its `_cptr` macro; an eligible
namespace adds what its member enums add and nothing else. -/
theorem finishGeneration_class_contributions (h : HeaderGen) (n : Nat) (p0 : String) :
    (collectStreams h n p0).pythonTypeStuff =
        "\n" ++ "// Global enums" ++ "\n" ++ concatAll (h.globalEnums.map (enumTypeStuff h))
          ++ concatAll (h.classes.map (classTypeStuffOf h)) ∧
      (collectStreams h n p0).convertersDecl =
        groupDeclarations h.toGenerator (n + 1)
          (h.globalEnums.map (fun e => [e.typeEntry.entry])
            ++ (h.classes.map (classConverterGroups h)).flatten) ∧
      ∀ p, isEligible h p = true →
        classTypeStuffOf h p =
            concatAll ((h.classAt p).enums.map (enumTypeStuff h))
              ++ (if (h.classAt p).isNamespace then ""
                  else concatAll ((generatedInnerClasses h p).map (classTypeStuff h))
                    ++ (classTypeStuff h p ++ cptrMacro h p)) ∧
          classConverterGroups h p =
            (h.classAt p).enums.map enumConvertedEntries
              ++ (if (h.classAt p).isNamespace then []
                  else (generatedInnerClasses h p).map (fun q => [(h.classAt q).typeEntry])
                    ++ [[(h.classAt p).typeEntry]]) := by
  refine ⟨by rw [collectStreams_eq], by rw [collectStreams_eq]; rfl, ?_⟩
  intro p he
  constructor
  · unfold classTypeStuffOf
    rw [if_pos he]
  · unfold classConverterGroups
    rw [if_pos he]

theorem finishGeneration_class_contributions_witness :
    isEligible (demoHeaderGen [1] []) 1 = true ∧
      classConverterGroups (demoHeaderGen [1] []) 1 =
        ((demoHeaderGen [1] []).classAt 1).enums.map enumConvertedEntries
          ++ (if ((demoHeaderGen [1] []).classAt 1).isNamespace then []
              else (generatedInnerClasses (demoHeaderGen [1] []) 1).map
                  (fun q => [((demoHeaderGen [1] []).classAt q).typeEntry])
                ++ [[((demoHeaderGen [1] []).classAt 1).typeEntry]]) :=
  ⟨by decide,
    ((finishGeneration_class_contributions (demoHeaderGen [1] []) 0 "").2.2 1
      (by decide)).2⟩

end HeaderGenerator
